import Mathlib

/-!
# gomw: HTTP middlewares for go-chi and negroni

A shallow embedding of the five source files of `yflau/gomw`

* `chi/ratelimit/ratelimit.go`   (`NewErroringLimiter`, `NewDelayingLimiter`)
* `chi/realip/realip.go`         (`RealIP`, `GetRealIP`)
* `chi/accesslog/accesslog.go`   (`NewAccessLogger`)
* `negroni/timeout/timeout.go`   (`Timeout.ServeHTTP`)
* `negroni/accesslog/accesslog.go` (`Logger.ServeHTTP`)

together with the parts of the Go standard library and of the chi / negroni
libraries they call (`context`, `net/http`, chi's `WrapResponseWriter`,
negroni's `ResponseWriter`).

Conventions of the embedding.

* Int is logical: an instant is an integer (nanoseconds), a call starts at an
  instant and its outcome says at which instant it came back.
* A response writer is a value; a method that mutates the Go object returns the
  new value.  A handler call returns the state of the writer it was given.
* A call ends either by returning or by panicking (`Outcome.panicked`).
* What the call did to the outside world besides the writer (entering the
  application handler, handing a record to a logging sink) is listed, in order,
  in `Outcome.trace`.
-/

set_option autoImplicit false

namespace Gomw

/-! ## Time -/

/-! Instants (`time.Time`) and durations (`time.Duration`) are integers, in
nanoseconds. -/

/-- Wrap-around of an `int64` computation (`time.Duration` is an `int64`). -/
def int64 (x : Int) : Int := (x + 2 ^ 63) % 2 ^ 64 - 2 ^ 63

/-! ## Package `context` -/

/-- The two errors a done context reports: `context.Canceled` and
`context.DeadlineExceeded`. -/
inductive CtxError
  | Canceled
  | DeadlineExceeded
deriving DecidableEq, Repr

/-- A context key: an interface value, equal to another one when the dynamic
type and the value agree. -/
structure CtxKey where
  typ : String
  val : String
deriving DecidableEq, Repr

/-- A value of type `interface{}` as far as the code distinguishes them:
`nil`, a `string`, or a value of another type. -/
inductive Value
  | nil
  | string (s : String)
  | int (i : Int)
  | bool (b : Bool)
deriving DecidableEq, Repr

/-- A context is the chain of its ancestors.

* `background` is `context.Background()`: never done, no deadline, no value.
* `valueCtx` is the result of `context.WithValue`.
* `cancelCtx` is the result of `context.WithCancel`; `cancelled` is the
  instant at which its `CancelFunc` was called, if it was.
* `timerCtx` is the result of `context.WithDeadline` when it arms a timer;
  `created` is the instant of the call, `cancelled` as for `cancelCtx`. -/
inductive Context
  | background
  | valueCtx (parent : Context) (key : CtxKey) (val : Value)
  | cancelCtx (parent : Context) (cancelled : Option Int)
  | timerCtx (parent : Context) (deadline : Int) (created : Int) (cancelled : Option Int)
deriving DecidableEq, Repr

/-- The method `ctx.Value(key)`: the value of the nearest `valueCtx` with that key,
`nil` when there is none. -/
def Context.Value : Context → CtxKey → Value
  | .background, _ => .nil
  | .valueCtx parent k v, key => if k = key then v else parent.Value key
  | .cancelCtx parent _, key => parent.Value key
  | .timerCtx parent _ _ _, key => parent.Value key

/-- Whether some ancestor of the context (itself included) was built by
`context.WithValue` with this key. -/
def Context.published : Context → CtxKey → Bool
  | .background, _ => false
  | .valueCtx parent k _, key => k = key || parent.published key
  | .cancelCtx parent _, key => parent.published key
  | .timerCtx parent _ _ _, key => parent.published key

/-- The method `ctx.Deadline()`. -/
def Context.Deadline : Context → Option Int
  | .background => none
  | .valueCtx parent _ _ => parent.Deadline
  | .cancelCtx parent _ => parent.Deadline
  | .timerCtx _ d _ _ => some d

/-- Of two cancellations the earlier one is the one that sticks (a context's
error is set once); at the same instant the first argument wins. -/
def firstDone (a b : Option (Int × CtxError)) : Option (Int × CtxError) :=
  match a, b with
  | none, b => b
  | some x, none => some x
  | some (ta, ea), some (tb, eb) => if ta ≤ tb then some (ta, ea) else some (tb, eb)

/-- The instant at which the context becomes done, and the error it reports from
then on.  A context is done when its parent is (with the parent's error), when
its timer fires (`DeadlineExceeded`; a deadline already past when the context is
created fires at creation) or when its `CancelFunc` is called (`Canceled`),
whichever comes first; at the same instant the parent goes before the timer and
the timer before the `CancelFunc`. -/
def Context.doneAt : Context → Option (Int × CtxError)
  | .background => none
  | .valueCtx parent _ _ => parent.doneAt
  | .cancelCtx parent c =>
      firstDone parent.doneAt (c.map fun t => (t, CtxError.Canceled))
  | .timerCtx parent d created c =>
      firstDone parent.doneAt
        (firstDone (some (max d created, CtxError.DeadlineExceeded))
          (c.map fun t => (t, CtxError.Canceled)))

/-- The method `ctx.Err()` called at instant `now`. -/
def Context.Err (ctx : Context) (now : Int) : Option CtxError :=
  match ctx.doneAt with
  | some (t, e) => if t ≤ now then some e else none
  | none => none

/-- The function `context.WithValue(parent, key, val)`. -/
def WithValue (parent : Context) (key : CtxKey) (val : Value) : Context :=
  .valueCtx parent key val

/-- The function `context.WithCancel(parent)`; the `CancelFunc` it returns is
`Context.cancel` on the result. -/
def WithCancel (parent : Context) : Context :=
  .cancelCtx parent none

/-- The function `context.WithDeadline(parent, d)` called at instant `now`: when the
parent's deadline is already sooner no timer is armed and the result is
`WithCancel(parent)`. -/
def WithDeadline (parent : Context) (d : Int) (now : Int) : Context :=
  match parent.Deadline with
  | some cur => if cur < d then WithCancel parent else .timerCtx parent d now none
  | none => .timerCtx parent d now none

/-- The function `context.WithTimeout(parent, timeout)` called at instant `now`, which is
`WithDeadline(parent, time.Now().Add(timeout))`. -/
def WithTimeout (parent : Context) (timeout : Int) (now : Int) : Context :=
  WithDeadline parent (now + timeout) now

/-- The `CancelFunc` of a context called at instant `t`; only the first call
counts. -/
def Context.cancel : Context → Int → Context
  | .cancelCtx parent none, t => .cancelCtx parent (some t)
  | .timerCtx parent d created none, t => .timerCtx parent d created (some t)
  | ctx, _ => ctx

/-! ## Package `net/http` -/

/-- The fields of `http.Request` the middlewares read.  `ctx` is the private
field behind `r.Context()`, `none` when it was never set. -/
structure Request where
  Method : String
  RequestURI : String
  Proto : String
  ProtoMajor : Nat
  Header : List (String × String)
  Host : String
  RemoteAddr : String
  Path : String
  ctx : Option Context
deriving DecidableEq, Repr

/-- The method `r.Context()`: the request's context, the background context when none
was set. -/
def Request.Context (r : Request) : Context :=
  match r.ctx with
  | some c => c
  | none => .background

/-- The method `r.WithContext(ctx)`: a copy of the request with its context replaced. -/
def Request.WithContext (r : Request) (ctx : Gomw.Context) : Request :=
  { r with ctx := some ctx }

/-- The method `r.UserAgent()`. -/
def Request.UserAgent (r : Request) : String :=
  (r.Header.lookup "User-Agent").getD ""

def StatusOK : Nat := 200
def StatusServiceUnavailable : Nat := 503
def StatusGatewayTimeout : Nat := 504

/-- The call `h.Set(k, v)` on a header map. -/
def headerSet (h : List (String × String)) (k v : String) : List (String × String) :=
  (k, v) :: h.filter fun kv => kv.1 ≠ k

/-- The call `h.Del(k)` on a header map. -/
def headerDel (h : List (String × String)) (k : String) : List (String × String) :=
  h.filter fun kv => kv.1 ≠ k

/-- The check `checkWriteHeaderCode` of `net/http`: a status code has three digits. -/
def validCode (code : Nat) : Bool := 100 ≤ code && code ≤ 999

/-- An informational code: 1xx other than 101 Switching Protocols.  The server
sends it as an interim response; it is not the status of the response. -/
def informational (code : Nat) : Bool := 100 ≤ code && code ≤ 199 && code != 101

/-- A code the server's writer takes as the status of the response: valid and not
informational. -/
def finalCode (code : Nat) : Bool := validCode code && !informational code

/-- The function `bodyAllowedForStatus` of `net/http`. -/
def bodyAllowedForStatus (status : Nat) : Bool :=
  !(100 ≤ status && status ≤ 199) && status != 204 && status != 304

/-- A response writer, by dynamic type.

* `response` is the server's own writer (`*http.response`): the header map,
  whether the status line was written, the status, and the body bytes `Write`
  accepted so far.  The first status written is the one that counts; a later
  `WriteHeader` is ignored.
* `basicWriter` is chi's `middleware.WrapResponseWriter` around `inner`: it
  records the first code passed to it and counts the bytes `inner.Write`
  reports.
* `negroni` is negroni's `ResponseWriter` (`github.com/urfave/negroni`) around
  `inner`: `WriteHeader` records the code of every call and passes the call on,
  `Written()` is `status != 0`, and `Size()` counts the bytes `inner.Write`
  reports.

Interim (1xx) responses are not kept, and neither a declared `Content-Length`
nor the `HEAD` method, for which the server drops body bytes, is modelled. -/
inductive ResponseWriter
  | response (header : List (String × String)) (wroteHeader : Bool) (status : Nat)
      (body : String)
  | basicWriter (inner : ResponseWriter) (wroteHeader : Bool) (code : Nat) (bytes : Nat)
  | negroni (inner : ResponseWriter) (status : Nat) (size : Nat)
deriving DecidableEq, Repr

/-- The call `w.Header().Set(k, v)`. -/
def ResponseWriter.SetHeader : ResponseWriter → String → String → ResponseWriter
  | .response h wh st b, k, v => .response (headerSet h k v) wh st b
  | .basicWriter i wh c n, k, v => .basicWriter (i.SetHeader k v) wh c n
  | .negroni i s n, k, v => .negroni (i.SetHeader k v) s n

/-- The call `w.Header().Del(k)`. -/
def ResponseWriter.DelHeader : ResponseWriter → String → ResponseWriter
  | .response h wh st b, k => .response (headerDel h k) wh st b
  | .basicWriter i wh c n, k => .basicWriter (i.DelHeader k) wh c n
  | .negroni i s n, k => .negroni (i.DelHeader k) s n

/-- Whether the call `w.WriteHeader(code)` panics: the server's writer, when it has
no status line yet, panics on a code that is not valid; a wrapper panics when
the call it passes on does. -/
def ResponseWriter.rejects : ResponseWriter → Nat → Bool
  | .response _ wh _ _, code => !wh && !validCode code
  | .basicWriter i wh _ _, code => !wh && i.rejects code
  | .negroni i _ _, code => i.rejects code

/-- The call `w.WriteHeader(code)`: the state of the writer after it (when the call
panics, see `ResponseWriter.rejects`, the state it leaves behind).  The server's
writer ignores the call when it has a status line, sends an informational code
as an interim response, and takes any other valid code as the status. -/
def ResponseWriter.WriteHeader : ResponseWriter → Nat → ResponseWriter
  | .response h wh st b, code =>
      if wh then .response h wh st b
      else if !validCode code then .response h wh st b
      else if informational code then .response h wh st b
      else .response h true code b
  | .basicWriter i wh c n, code =>
      if wh then .basicWriter i wh c n else .basicWriter (i.WriteHeader code) true code n
  | .negroni i _ n, code => .negroni (i.WriteHeader code) code n

/-- The call `w.Write(p)`, after `w.WriteHeader(StatusOK)` when `hdr` is set: the new
writer and the number of bytes written.

* The server's writer without a status line takes `StatusOK` first (with or
  without `hdr`), then accepts the bytes if the status allows a body.
* chi's wrapper calls its own `WriteHeader(StatusOK)` first, which does
  something only if it has recorded no code yet: it records `StatusOK` and
  passes the call on.  So `inner` gets `WriteHeader(StatusOK)`, once, exactly when
  the wrapper had no code, and then `Write(p)`.
* negroni's wrapper calls its own `WriteHeader(StatusOK)` first if not
  `Written()`.  So `inner` gets `WriteHeader(StatusOK)`, once, exactly when `hdr` is
  set or the status was 0, and then `Write(p)`.

That the flag means what it says is `writeFrom_true`. -/
def ResponseWriter.writeFrom : ResponseWriter → Bool → String → ResponseWriter × Nat
  | .response h wh st b, _, p =>
      if bodyAllowedForStatus (if wh then st else StatusOK) then
        (.response h true (if wh then st else StatusOK) (b ++ p), p.utf8ByteSize)
      else (.response h true (if wh then st else StatusOK) b, 0)
  | .basicWriter i wh c n, _, p =>
      let res := i.writeFrom (!wh) p
      (.basicWriter res.1 true (if wh then c else StatusOK) (n + res.2), res.2)
  | .negroni i s n, hdr, p =>
      let res := i.writeFrom (hdr || s == 0) p
      (.negroni res.1 (if hdr || s == 0 then StatusOK else s) (n + res.2), res.2)

/-- The call `w.Write(p)`: the new writer and the number of bytes written. -/
def ResponseWriter.Write (w : ResponseWriter) (p : String) : ResponseWriter × Nat :=
  w.writeFrom false p

/-- The status line of the server's writer at the bottom of the wrappers. -/
def ResponseWriter.wireStatus : ResponseWriter → Nat
  | .response _ _ st _ => st
  | .basicWriter i _ _ _ => i.wireStatus
  | .negroni i _ _ => i.wireStatus

/-- Whether a status line was written to the server's writer. -/
def ResponseWriter.wroteStatus : ResponseWriter → Bool
  | .response _ wh _ _ => wh
  | .basicWriter i _ _ _ => i.wroteStatus
  | .negroni i _ _ => i.wroteStatus

/-- The status the client receives once the handlers have returned: the status
line that was written, and `StatusOK`, which the server writes itself, when
none was. -/
def ResponseWriter.clientStatus (w : ResponseWriter) : Nat :=
  if w.wroteStatus then w.wireStatus else StatusOK

/-- The body bytes the server's writer accepted. -/
def ResponseWriter.wireBody : ResponseWriter → String
  | .response _ _ _ b => b
  | .basicWriter i _ _ _ => i.wireBody
  | .negroni i _ _ => i.wireBody

/-- The status a wrapper reports with `Status()`; for the server's writer, its
status. -/
def ResponseWriter.Status : ResponseWriter → Nat
  | .response _ _ st _ => st
  | .basicWriter _ _ c _ => c
  | .negroni _ s _ => s

/-- The byte count a wrapper reports (`BytesWritten()` for chi, `Size()` for
negroni); for the server's writer, the size of its body. -/
def ResponseWriter.BytesWritten : ResponseWriter → Nat
  | .response _ _ _ b => b.utf8ByteSize
  | .basicWriter _ _ _ n => n
  | .negroni _ _ n => n

/-- The writer a wrapper wraps; the server's writer wraps nothing. -/
def ResponseWriter.Unwrap : ResponseWriter → ResponseWriter
  | .response h wh st b => .response h wh st b
  | .basicWriter i _ _ _ => i
  | .negroni i _ _ => i

/-- Whether the writer itself holds a status already. -/
def ResponseWriter.written : ResponseWriter → Bool
  | .response _ wh _ _ => wh
  | .basicWriter _ wh _ _ => wh
  | .negroni _ s _ => s ≠ 0

/-- Whether the writer is one in which the first status written wins: the
server's writer and chi's wrapper ignore `WriteHeader` once they hold a status,
negroni's wrapper records the code of every call. -/
def ResponseWriter.firstStatusWins : ResponseWriter → Bool
  | .response _ _ _ _ => true
  | .basicWriter _ _ _ _ => true
  | .negroni _ _ _ => false

/-- Whether no layer of the writer holds a status yet. -/
def ResponseWriter.pending : ResponseWriter → Bool
  | .response _ wh _ _ => !wh
  | .basicWriter i wh _ _ => !wh && i.pending
  | .negroni i s _ => s = 0 && i.pending

/-- The function `http.Error(w, error, code)` (as of Go 1.23 it deletes the
`Content-Length` header first).  With a code that `WriteHeader` rejects the call
panics there and nothing is written; both calls in this repository pass 503,
which no writer rejects. -/
def Error (w : ResponseWriter) (error : String) (code : Nat) : ResponseWriter :=
  let w0 := w.DelHeader "Content-Length"
  let w1 := w0.SetHeader "Content-Type" "text/plain; charset=utf-8"
  let w2 := w1.SetHeader "X-Content-Type-Options" "nosniff"
  let w3 := w2.WriteHeader code
  if w2.rejects code then w3 else (w3.Write (error ++ "\n")).1

/-! ## Handlers -/

/-- The injected logrus logger, by identity. -/
structure LogrusLogger where
  id : Nat
deriving DecidableEq, Repr

/-- The `logrus.Fields` the chi access logger fills in. -/
structure Fields where
  request : String
  method : String
  proto : String
  userAgent : String
  latencyMs : Int
  realip : String
  status : Nat
  size : Nat
deriving DecidableEq, Repr

/-- What a call does to the world apart from the response writer.

* `served w r`: the application handler was entered with writer `w` and
  request `r`.
* `info logger fields msg`: `logger.WithFields(fields).Info(msg)` was called.
* `printf format`: `Printf(format)` was called on the negroni logger's
  `StandardLogger`. -/
inductive Event
  | served (w : ResponseWriter) (r : Request)
  | info (logger : LogrusLogger) (fields : Fields) (msg : String)
  | printf (format : String)
deriving DecidableEq, Repr

/-- How a call ended: the state of the writer it was given, the instant it
ended, the panic value if it panicked, and the events it caused, in order. -/
structure Outcome where
  w : ResponseWriter
  now : Int
  panicked : Option String
  trace : List Event
deriving DecidableEq, Repr

/-- An `http.Handler` (and negroni's `http.HandlerFunc`): called with a writer and
a request at an instant. -/
abbrev Handler := ResponseWriter → Request → Int → Outcome

/-- One call on the `http.ResponseWriter` interface. -/
inductive WriterOp
  | setHeader (k v : String)
  | writeHeader (code : Nat)
  | write (p : String)
deriving DecidableEq, Repr

/-- The state of the writer after one call. -/
def ResponseWriter.apply (w : ResponseWriter) : WriterOp → ResponseWriter
  | .setHeader k v => w.SetHeader k v
  | .writeHeader code => w.WriteHeader code
  | .write p => (w.Write p).1

/-- The state of the writer after a sequence of calls. -/
def ResponseWriter.applyOps (w : ResponseWriter) (ops : List WriterOp) : ResponseWriter :=
  ops.foldl ResponseWriter.apply w

/-- Whether one call panics: only `WriteHeader` can. -/
def ResponseWriter.panicsOn (w : ResponseWriter) : WriterOp → Bool
  | .writeHeader code => w.rejects code
  | _ => false

/-- Whether one of a sequence of calls panics. -/
def ResponseWriter.opsPanic : ResponseWriter → List WriterOp → Bool
  | _, [] => false
  | w, op :: ops => w.panicsOn op || (w.apply op).opsPanic ops

/-- What an application handler does in one call on the writer `w`: the calls it
makes on the writer that return (`returns`: none of them panics), how long it
runs, and whether it ends in a panic.  A handler one of whose calls panics is
the script of the calls before that one, with `panics`. -/
structure Script (w : ResponseWriter) where
  ops : List WriterOp
  elapsed : Nat
  panics : Option String
  returns : w.opsPanic ops = false

/-- An application handler: what it does may depend on the writer and request it
is given and on the instant it is called. -/
abbrev Behaviour := (w : ResponseWriter) → Request → Int → Script w

/-- The application handler with behaviour `b`, as an `http.Handler`. -/
def serve (b : Behaviour) : Handler := fun w r now =>
  let s := b w r now
  { w := w.applyOps s.ops, now := now + s.elapsed, panicked := s.panics,
    trace := [Event.served w r] }

/-- The calls of the application handler in a trace: writer and request of each. -/
def calls : List Event → List (ResponseWriter × Request)
  | [] => []
  | .served w r :: es => (w, r) :: calls es
  | _ :: es => calls es

/-- The records handed to the logrus sink in a trace. -/
def infos : List Event → List Fields
  | [] => []
  | .info _ f _ :: es => f :: infos es
  | _ :: es => infos es

/-- The lines handed to the negroni logger's `Printf` in a trace. -/
def printfs : List Event → List String
  | [] => []
  | .printf s :: es => s :: printfs es
  | _ :: es => printfs es

/-! ## `chi/ratelimit/ratelimit.go` -/

/-- The text of `ErrLimited`. -/
def ErrLimited : String := "rate limit exceeded"

/-- The interface `Allower`.  The limiter keeps its own state; to the middleware a
call of `Allow()` at an instant yields a Boolean. -/
structure Allower where
  Allow : Int → Bool

/-- The interface `Waiter`: `Wait(ctx)` called at an instant comes back at an
instant, with an error (its message) or `nil`. -/
structure Waiter where
  Wait : Context → Int → Option String × Int

/-- The middleware `NewErroringLimiter(limit)(next)`. -/
def NewErroringLimiter (limit : Allower) (next : Handler) : Handler := fun w r now =>
  let w1 := if !limit.Allow now then Error w ErrLimited StatusServiceUnavailable else w
  next w1 r now

/-- The middleware `NewDelayingLimiter(limit)(next)`. -/
def NewDelayingLimiter (limit : Waiter) (next : Handler) : Handler := fun w r now =>
  let res := limit.Wait r.Context now
  let w1 := match res.1 with
    | some err => Error w err StatusServiceUnavailable
    | none => w
  next w1 r res.2

/-! ## `chi/realip/realip.go` -/

/-- The constant `RealIPKey`: the value 0 of the package's private key type. -/
def RealIPKey : CtxKey := { typ := "realip.ctxKeyRealIP", val := "0" }

/-- The middleware `RealIP(next)`.  `FromRequest` is `realip.FromRequest` of
`github.com/Tomasen/realip`, the resolver of the client address, which is not
part of this repository. -/
def RealIP (FromRequest : Request → String) (next : Handler) : Handler := fun w r now =>
  let rip := FromRequest r
  let ctx := WithValue r.Context RealIPKey (.string rip)
  next w (r.WithContext ctx) now

/-- The function `GetRealIP(ctx)`; `none` is the `nil` context. -/
def GetRealIP : Option Context → String
  | none => ""
  | some ctx =>
      match ctx.Value RealIPKey with
      | .string rip => rip
      | _ => ""

/-! ## `chi/accesslog/accesslog.go` -/

/-- The function `middleware.NewWrapResponseWriter(w, protoMajor)` of chi. -/
def NewWrapResponseWriter (w : ResponseWriter) (_protoMajor : Nat) : ResponseWriter :=
  .basicWriter w false 0 0

/-- The middleware `NewAccessLogger(logger)(next)`.  The statements after
`next.ServeHTTP(ww, r)` run only when that call returns; a panic in it leaves
the function at once.  The outcome gives back the writer `w` the middleware was
called with, which is the one `ww` wraps. -/
def NewAccessLogger (logger : LogrusLogger) (next : Handler) : Handler := fun w r now =>
  let ww := NewWrapResponseWriter w r.ProtoMajor
  let start := now
  let out := next ww r start
  match out.panicked with
  | some v => { w := out.w.Unwrap, now := out.now, panicked := some v, trace := out.trace }
  | none =>
      let latencyMs := int64 (int64 (out.now - start) * 1000)
      let fields : Fields :=
        { request := r.RequestURI
          method := r.Method
          proto := r.Proto
          userAgent := r.UserAgent
          latencyMs := latencyMs
          realip := GetRealIP (some r.Context)
          status := out.w.Status
          size := out.w.BytesWritten }
      { w := out.w.Unwrap, now := out.now, panicked := none,
        trace := out.trace ++ [Event.info logger fields "completed handling request"] }

/-! ## `negroni/timeout/timeout.go` -/

/-- The struct `Timeout`. -/
structure Timeout where
  timeout : Int
deriving DecidableEq, Repr

/-- The function `New(t)`. -/
def New (t : Int) : Timeout := { timeout := t }

/-- The method `(*Timeout).ServeHTTP(w, r, next)`.  The deferred function runs when
`next` returns and when it panics: it calls `cancel()` and then, when `ctx.Err()`
is `context.DeadlineExceeded`, `w.WriteHeader(http.StatusGatewayTimeout)`. -/
def Timeout.ServeHTTP (t : Timeout) (w : ResponseWriter) (r : Request) (next : Handler)
    (now : Int) : Outcome :=
  let ctx := WithTimeout r.Context t.timeout now
  let r1 := r.WithContext ctx
  let out := next w r1 now
  let ctx1 := ctx.cancel out.now
  let w1 :=
    if ctx1.Err out.now = some CtxError.DeadlineExceeded then
      out.w.WriteHeader StatusGatewayTimeout
    else out.w
  { w := w1, now := out.now, panicked := out.panicked, trace := out.trace }

/-- The child context `Timeout.ServeHTTP` derives from the request's context, and
the request it hands to `next`. -/
def Timeout.childCtx (t : Timeout) (r : Request) (now : Int) : Context :=
  WithTimeout r.Context t.timeout now

/-- The outcome of the call `next.ServeHTTP(w, r)` inside `Timeout.ServeHTTP`, before
the deferred function runs. -/
def Timeout.inner (t : Timeout) (w : ResponseWriter) (r : Request) (next : Handler)
    (now : Int) : Outcome :=
  next w (r.WithContext (t.childCtx r now)) now

/-! ## `negroni/accesslog/accesslog.go` -/

/-- The struct `LoggerEntry` (without the field `Response`, a pointer to the
writer variable). -/
structure LoggerEntry where
  StartTime : String
  Status : Nat
  Duration : Int
  Hostname : String
  Method : String
  Path : String
  Request : Request
  Size : Nat
  RemoteAddr : String
  ClientAddr : String
deriving DecidableEq, Repr

/-- The struct `Logger`.  `template` is the parsed template as the function from
the data to the text `Execute` leaves in the buffer; `Format` is
`time.Time.Format`.  The embedded `StandardLogger` is the sink: a call of its
`Printf` is the event `Event.printf`. -/
structure Logger where
  dateFormat : String
  template : LoggerEntry → String
  Format : Int → String → String

/-- The `LoggerEntry` that `Logger.ServeHTTP` builds from the request `r`, the instant
`start` taken before the call of `next`, the writer `res` after it and the
instant `finish` at which `time.Since(start)` is taken. -/
def Logger.entry (l : Logger) (r : Request) (start : Int) (res : ResponseWriter)
    (finish : Int) : LoggerEntry :=
  { StartTime := l.Format start l.dateFormat
    Status := res.Status
    Duration := int64 (finish - start)
    Hostname := r.Host
    Method := r.Method
    Path := r.Path
    Request := r
    Size := res.BytesWritten
    RemoteAddr := r.RemoteAddr
    ClientAddr := GetRealIP (some r.Context) }

/-- The method `(*Logger).ServeHTTP(rw, r, next)`.  The statements after
`next(rw, r)` run only when that call returns.  The type assertion
`rw.(negroni.ResponseWriter)` panics unless the writer is negroni's. -/
def Logger.ServeHTTP (l : Logger) (rw : ResponseWriter) (r : Request) (next : Handler)
    (now : Int) : Outcome :=
  let start := now
  let out := next rw r start
  match out.panicked with
  | some v => { w := out.w, now := out.now, panicked := some v, trace := out.trace }
  | none =>
      match out.w with
      | .negroni i s n =>
          let res := ResponseWriter.negroni i s n
          let log := l.entry r start res out.now
          { w := out.w, now := out.now, panicked := none,
            trace := out.trace ++ [Event.printf (l.template log)] }
      | _ =>
          { w := out.w, now := out.now,
            panicked := some "interface conversion: not a negroni.ResponseWriter",
            trace := out.trace }

/-- The status negroni's writer reports after a sequence of calls, given the
status `s` it reported before: the code of the last `WriteHeader`, and `StatusOK`
from a `Write` that found status 0. -/
def lastCode : Nat → List WriterOp → Nat
  | s, [] => s
  | s, .setHeader _ _ :: ops => lastCode s ops
  | _, .writeHeader code :: ops => lastCode code ops
  | s, .write _ :: ops => lastCode (if s = 0 then StatusOK else s) ops

/-- Whether `WithDeadline(parent, d)` arms a timer of its own: it does not when the
parent's deadline is sooner. -/
def armsTimer (parent : Context) (d : Int) : Bool :=
  match parent.Deadline with
  | some cur => !decide (cur < d)
  | none => true

/-- A chi wrapper directly around the server's writer agrees with it.  A status
line is written only through the wrapper; a wrapper without a code reports 0;
the code of a wrapper, unless informational, is the status line; and the
wrapper's byte count is what the body grew by since it had `base` bytes. -/
def wrapperAgrees (base : Nat) : ResponseWriter → Prop
  | .basicWriter (.response _ wh st body) whh c n =>
      (wh = true → whh = true) ∧ (whh = false → c = 0) ∧
      (whh = true → informational c = false → wh = true ∧ st = c) ∧
      n + base = body.utf8ByteSize
  | _ => False

/-! ## Sample inputs -/

/-- A plain `GET /` request without a context of its own. -/
def sampleRequest : Request :=
  { Method := "GET", RequestURI := "/", Proto := "HTTP/1.1", ProtoMajor := 1,
    Header := [("User-Agent", "curl"), ("X-Forwarded-For", "203.0.113.7, 10.0.0.1")],
    Host := "example.org", RemoteAddr := "10.0.0.1:4711", Path := "/", ctx := none }

/-- A fresh server writer: nothing written yet. -/
def freshWriter : ResponseWriter := .response [] false 0 ""

/-- An application handler that writes `hello` and returns after 5 instants. -/
def helloApp : Behaviour := fun _ _ _ =>
  { ops := [WriterOp.write "hello"], elapsed := 5, panics := none, returns := rfl }

/-- An application handler that panics at once. -/
def panicApp : Behaviour := fun _ _ _ =>
  { ops := [], elapsed := 0, panics := some "boom", returns := rfl }

/-- A limiter that rejects every request. -/
def denyAll : Allower := { Allow := fun _ => false }

/-- A limiter that admits every request. -/
def allowAll : Allower := { Allow := fun _ => true }

/-- A waiter whose wait fails at once with the given message. -/
def failingWaiter (msg : String) : Waiter := { Wait := fun _ now => (some msg, now) }

/-- A waiter that grants permission after 3 instants. -/
def grantingWaiter : Waiter := { Wait := fun _ now => (none, now + 3) }

/-- An application handler that writes status 200 and `ok`, and returns after 50
instants. -/
def slowOkApp : Behaviour := fun w _ _ =>
  { ops := [WriterOp.writeHeader 200, WriterOp.write "ok"], elapsed := 50, panics := none,
    returns := by
      induction w <;>
        simp_all [ResponseWriter.opsPanic, ResponseWriter.panicsOn, ResponseWriter.rejects,
          validCode] }

/-- An application handler that writes nothing and returns after 10 instants. -/
def silentApp : Behaviour := fun _ _ _ =>
  { ops := [], elapsed := 10, panics := none, returns := rfl }

/-- An application handler that writes status 200 and 42 bytes, and returns after 5
instants. -/
def fortyTwoApp : Behaviour := fun w _ _ =>
  { ops := [WriterOp.writeHeader 200,
            WriterOp.write "0123456789012345678901234567890123456789ab"],
    elapsed := 5, panics := none,
    returns := by
      induction w <;>
        simp_all [ResponseWriter.opsPanic, ResponseWriter.panicsOn, ResponseWriter.rejects,
          validCode] }

/-- An application handler that writes status 404, then calls `WriteHeader(500)`,
and returns after 1 instant. -/
def twiceApp : Behaviour := fun w _ _ =>
  { ops := [WriterOp.writeHeader 404, WriterOp.writeHeader 500], elapsed := 1,
    panics := none,
    returns := by
      have h : ∀ (x : ResponseWriter) (c : Nat), validCode c = true → x.rejects c = false := by
        intro x c hc
        induction x <;> simp_all [ResponseWriter.rejects]
      simp [ResponseWriter.opsPanic, ResponseWriter.panicsOn, ResponseWriter.apply,
        h _ 404 (by decide), h _ 500 (by decide)] }

/-- A request whose own context has a deadline at instant 5 (set upstream at
instant 0). -/
def expiringRequest : Request :=
  { sampleRequest with ctx := some (Context.timerCtx Context.background 5 0 none) }

/-- A request whose own context is cancelled by its owner at instant 3. -/
def cancelledRequest : Request :=
  { sampleRequest with ctx := some (Context.cancelCtx Context.background (some 3)) }

/-- A resolver that finds the same client address in every request. -/
def fixedResolver : Request → String := fun _ => "203.0.113.7"

/-- A negroni logger with a short template. -/
def sampleLogger : Logger :=
  { dateFormat := "2006-01-02T15:04:05Z07:00",
    template := fun e => e.ClientAddr ++ " " ++ e.Method ++ " " ++ e.Path,
    Format := fun _ _ => "now" }

/-- A fresh negroni writer around a fresh server writer. -/
def negroniWriter : ResponseWriter := .negroni freshWriter 0 0

/-- The logrus logger of the examples. -/
def sampleLogrus : LogrusLogger := { id := 0 }

/-- A negroni logger whose template shows the status. -/
def statusLogger : Logger :=
  { dateFormat := "2006-01-02T15:04:05Z07:00",
    template := fun e =>
      if e.Status = 500 then "status 500"
      else if e.Status = 404 then "status 404" else "another status",
    Format := fun _ _ => "now" }

/-! ## Lemmas on response writers -/

/-- No writer panics on a valid code. -/
theorem rejects_of_validCode (w : ResponseWriter) (code : Nat)
    (h : validCode code = true) : w.rejects code = false := by
  induction w <;> simp_all [ResponseWriter.rejects]

/-- A writer no layer of which holds a status panics on every code that is not
valid. -/
theorem validCode_of_pending (w : ResponseWriter) (code : Nat)
    (hp : w.pending = true) (h : w.rejects code = false) : validCode code = true := by
  induction w with
  | response hd wh st b =>
      simp_all [ResponseWriter.pending, ResponseWriter.rejects]
  | basicWriter i wh c n ih =>
      simp_all [ResponseWriter.pending, ResponseWriter.rejects]
  | negroni i s n ih =>
      simp_all [ResponseWriter.pending, ResponseWriter.rejects]

/-- A writer in which the first status wins, and that holds one, ignores
`WriteHeader`. -/
theorem WriteHeader_of_written (w : ResponseWriter) (code : Nat)
    (hf : w.firstStatusWins = true) (h : w.written = true) : w.WriteHeader code = w := by
  cases w <;>
    simp_all [ResponseWriter.written, ResponseWriter.WriteHeader,
      ResponseWriter.firstStatusWins]

/-- Once a status line went to the server's writer, `WriteHeader` leaves it
alone, through every wrapper. -/
theorem wireStatus_WriteHeader_of_wroteStatus (w : ResponseWriter) (code : Nat)
    (h : w.wroteStatus = true) : (w.WriteHeader code).wireStatus = w.wireStatus := by
  induction w with
  | response hd wh st b =>
      simp_all [ResponseWriter.wroteStatus, ResponseWriter.WriteHeader]
  | basicWriter i wh c n ih =>
      by_cases hw : wh = true
      · simp [ResponseWriter.WriteHeader, hw]
      · simp_all [ResponseWriter.WriteHeader, ResponseWriter.wireStatus,
          ResponseWriter.wroteStatus]
  | negroni i s n ih =>
      simp_all [ResponseWriter.WriteHeader, ResponseWriter.wireStatus,
        ResponseWriter.wroteStatus]

/-- A written status line stays written under `WriteHeader`. -/
theorem wroteStatus_WriteHeader_of_wroteStatus (w : ResponseWriter) (code : Nat)
    (h : w.wroteStatus = true) : (w.WriteHeader code).wroteStatus = true := by
  induction w with
  | response hd wh st b =>
      simp_all [ResponseWriter.wroteStatus, ResponseWriter.WriteHeader]
  | basicWriter i wh c n ih =>
      by_cases hw : wh = true
      · simpa [ResponseWriter.WriteHeader, hw] using h
      · simp_all [ResponseWriter.WriteHeader, ResponseWriter.wroteStatus]
  | negroni i s n ih =>
      simp_all [ResponseWriter.WriteHeader, ResponseWriter.wroteStatus]

/-- On a writer no layer of which holds a status, `WriteHeader` with a final code
writes the status line, and every layer reports the code. -/
theorem WriteHeader_of_pending (w : ResponseWriter) (code : Nat)
    (hp : w.pending = true) (hc : finalCode code = true) :
    (w.WriteHeader code).wroteStatus = true ∧ (w.WriteHeader code).wireStatus = code ∧
    (w.WriteHeader code).Status = code := by
  simp only [finalCode, Bool.and_eq_true, Bool.not_eq_true'] at hc
  induction w with
  | response hd wh st b =>
      simp_all [ResponseWriter.pending, ResponseWriter.WriteHeader,
        ResponseWriter.wroteStatus, ResponseWriter.wireStatus, ResponseWriter.Status]
  | basicWriter i wh c n ih =>
      simp_all [ResponseWriter.pending, ResponseWriter.WriteHeader,
        ResponseWriter.wroteStatus, ResponseWriter.wireStatus, ResponseWriter.Status]
  | negroni i s n ih =>
      simp_all [ResponseWriter.pending, ResponseWriter.WriteHeader,
        ResponseWriter.wroteStatus, ResponseWriter.wireStatus, ResponseWriter.Status]

/-- The flag of `writeFrom` stands for a call of `WriteHeader(StatusOK)` before the
call of `Write`. -/
theorem writeFrom_true (w : ResponseWriter) (p : String) :
    w.writeFrom true p = (w.WriteHeader StatusOK).writeFrom false p := by
  induction w with
  | response hd wh st b =>
      cases wh <;>
        simp [ResponseWriter.WriteHeader, ResponseWriter.writeFrom, validCode,
          informational, StatusOK]
  | basicWriter i wh c n ih =>
      cases wh <;> simp [ResponseWriter.WriteHeader, ResponseWriter.writeFrom, ih]
  | negroni i s n ih =>
      have h200 : (StatusOK == 0) = false := by decide
      simp [ResponseWriter.WriteHeader, ResponseWriter.writeFrom, ih, h200]

/-- What `Write` does on each kind of writer, spelled with `WriteHeader` and `Write`
of the wrapped writer. -/
theorem Write_unfold (i : ResponseWriter) (wh : Bool) (c s n : Nat) (p : String) :
    (ResponseWriter.basicWriter i wh c n).Write p =
      (if wh then
        (ResponseWriter.basicWriter (i.Write p).1 true c (n + (i.Write p).2), (i.Write p).2)
      else
        (ResponseWriter.basicWriter ((i.WriteHeader StatusOK).Write p).1 true StatusOK
            (n + ((i.WriteHeader StatusOK).Write p).2),
          ((i.WriteHeader StatusOK).Write p).2)) ∧
    (ResponseWriter.negroni i s n).Write p =
      (if s = 0 then
        (ResponseWriter.negroni ((i.WriteHeader StatusOK).Write p).1 StatusOK
            (n + ((i.WriteHeader StatusOK).Write p).2),
          ((i.WriteHeader StatusOK).Write p).2)
      else
        (ResponseWriter.negroni (i.Write p).1 s (n + (i.Write p).2), (i.Write p).2)) := by
  constructor
  · cases wh <;> simp [ResponseWriter.Write, ResponseWriter.writeFrom, writeFrom_true]
  · by_cases hs : s = 0
    · simp [ResponseWriter.Write, ResponseWriter.writeFrom, writeFrom_true, hs]
    · have hb : (s == 0) = false := by simp [hs]
      simp [ResponseWriter.Write, ResponseWriter.writeFrom, hs, hb]

/-- Setting a header field leaves the status line alone. -/
theorem status_SetHeader (w : ResponseWriter) (k v : String) :
    (w.SetHeader k v).wroteStatus = w.wroteStatus ∧
    (w.SetHeader k v).wireStatus = w.wireStatus := by
  induction w with
  | response hd wh st b =>
      simp [ResponseWriter.SetHeader, ResponseWriter.wroteStatus, ResponseWriter.wireStatus]
  | basicWriter i wh c n ih =>
      simpa [ResponseWriter.SetHeader, ResponseWriter.wroteStatus,
        ResponseWriter.wireStatus] using ih
  | negroni i s n ih =>
      simpa [ResponseWriter.SetHeader, ResponseWriter.wroteStatus,
        ResponseWriter.wireStatus] using ih

/-- After `Write` the status line is written; it is the one written before, if
there was one. -/
theorem status_writeFrom (w : ResponseWriter) (hdr : Bool) (p : String) :
    (w.writeFrom hdr p).1.wroteStatus = true ∧
    (w.wroteStatus = true → (w.writeFrom hdr p).1.wireStatus = w.wireStatus) := by
  induction w generalizing hdr with
  | response hd wh st b =>
      cases wh
      · by_cases hb : bodyAllowedForStatus StatusOK = true <;>
          simp [ResponseWriter.writeFrom, hb, ResponseWriter.wroteStatus]
      · by_cases hb : bodyAllowedForStatus st = true <;>
          simp [ResponseWriter.writeFrom, hb, ResponseWriter.wroteStatus,
            ResponseWriter.wireStatus]
  | basicWriter i wh c n ih =>
      simpa [ResponseWriter.writeFrom, ResponseWriter.wroteStatus,
        ResponseWriter.wireStatus] using ih (!wh)
  | negroni i s n ih =>
      simpa [ResponseWriter.writeFrom, ResponseWriter.wroteStatus,
        ResponseWriter.wireStatus] using ih (hdr || s == 0)

/-- Once the status line is written no call on the writer changes it. -/
theorem status_apply (w : ResponseWriter) (op : WriterOp) (h : w.wroteStatus = true) :
    (w.apply op).wroteStatus = true ∧ (w.apply op).wireStatus = w.wireStatus := by
  cases op with
  | setHeader k v =>
      have := status_SetHeader w k v
      exact ⟨by simpa [ResponseWriter.apply, h] using this.1, this.2⟩
  | writeHeader code =>
      exact ⟨wroteStatus_WriteHeader_of_wroteStatus w code h,
        wireStatus_WriteHeader_of_wroteStatus w code h⟩
  | write p =>
      exact ⟨(status_writeFrom w false p).1, (status_writeFrom w false p).2 h⟩

/-- Once the status line is written no sequence of calls on the writer changes
it. -/
theorem status_applyOps (ops : List WriterOp) (w : ResponseWriter)
    (h : w.wroteStatus = true) :
    (w.applyOps ops).wroteStatus = true ∧ (w.applyOps ops).wireStatus = w.wireStatus := by
  induction ops generalizing w with
  | nil => exact ⟨h, rfl⟩
  | cons op ops ih =>
      have h1 := status_apply w op h
      have h2 := ih (w.apply op) h1.1
      exact ⟨h2.1, h2.2.trans h1.2⟩

/-! ## Rate limiting (`chi/ratelimit/ratelimit.go`) -/

/-- Whatever the limiter answers, `NewErroringLimiter(limit)(next)` enters the
application handler exactly once: there is no `return` after `http.Error`. -/
theorem NewErroringLimiter_always_serves (limit : Allower) (b : Behaviour)
    (w : ResponseWriter) (r : Request) (now : Int) :
    (calls (NewErroringLimiter limit (serve b) w r now).trace).length = 1 := by
  simp [NewErroringLimiter, serve, calls]

/-- Whatever the wait returns, `NewDelayingLimiter(limit)(next)` enters the
application handler exactly once. -/
theorem NewDelayingLimiter_always_serves (limit : Waiter) (b : Behaviour)
    (w : ResponseWriter) (r : Request) (now : Int) :
    (calls (NewDelayingLimiter limit (serve b) w r now).trace).length = 1 := by
  simp [NewDelayingLimiter, serve, calls]

/-- C1, the code at the failing input: the limiter rejects (`Allow()` is false),
the middleware writes status 503 and the text of `ErrLimited`, and then it still
calls `next`, with the writer that already holds the rejection; the body of the
response ends with what `next` wrote. -/
theorem erroring_limiter_denied_still_calls_next :
    denyAll.Allow 0 = false ∧
    calls (NewErroringLimiter denyAll (serve helloApp) freshWriter sampleRequest 0).trace
      = [(Error freshWriter ErrLimited StatusServiceUnavailable, sampleRequest)] ∧
    (NewErroringLimiter denyAll (serve helloApp) freshWriter sampleRequest 0).w.wireStatus
      = 503 ∧
    (NewErroringLimiter denyAll (serve helloApp) freshWriter sampleRequest 0).w.wireBody
      = "rate limit exceeded\nhello" := by
  decide

/-- C2, the code at the failing input: the wait fails with an error, the
middleware writes status 503 and the error's message, and then it still calls
`next`; the body of the response ends with what `next` wrote. -/
theorem delaying_limiter_failed_wait_still_calls_next :
    ((failingWaiter "context canceled").Wait sampleRequest.Context 0).1
      = some "context canceled" ∧
    calls (NewDelayingLimiter (failingWaiter "context canceled") (serve helloApp)
        freshWriter sampleRequest 0).trace
      = [(Error freshWriter "context canceled" StatusServiceUnavailable, sampleRequest)] ∧
    (NewDelayingLimiter (failingWaiter "context canceled") (serve helloApp)
        freshWriter sampleRequest 0).w.wireStatus = 503 ∧
    (NewDelayingLimiter (failingWaiter "context canceled") (serve helloApp)
        freshWriter sampleRequest 0).w.wireBody = "context canceled\nhello" := by
  decide

/-- C3: when the decision source admits the request (`Allow()` is true, or
`Wait` returns `nil`), the limiter does nothing but call `next`, with the writer
and the request it was given: its outcome is the outcome of that one call, and
the application handler is entered exactly once, with that writer and that
request, so the limiter itself wrote no status and no body. -/
theorem limiter_admitted_passes_through (limit : Allower) (wait : Waiter)
    (next : Handler) (b : Behaviour) (w : ResponseWriter) (r : Request) (now : Int) :
    (limit.Allow now = true →
      NewErroringLimiter limit next w r now = next w r now ∧
      calls (NewErroringLimiter limit (serve b) w r now).trace = [(w, r)] ∧
      (NewErroringLimiter limit (serve b) w r now).w = w.applyOps (b w r now).ops) ∧
    ((wait.Wait r.Context now).1 = none →
      NewDelayingLimiter wait next w r now = next w r (wait.Wait r.Context now).2 ∧
      calls (NewDelayingLimiter wait (serve b) w r now).trace = [(w, r)] ∧
      (NewDelayingLimiter wait (serve b) w r now).w
        = w.applyOps (b w r (wait.Wait r.Context now).2).ops) := by
  constructor
  · intro h
    have key : ∀ nx : Handler, NewErroringLimiter limit nx w r now = nx w r now := by
      intro nx
      simp [NewErroringLimiter, h]
    rw [key next, key (serve b)]
    exact ⟨rfl, rfl, rfl⟩
  · intro h
    have key : ∀ nx : Handler,
        NewDelayingLimiter wait nx w r now = nx w r (wait.Wait r.Context now).2 := by
      intro nx
      simp [NewDelayingLimiter, h]
    rw [key next, key (serve b)]
    exact ⟨rfl, rfl, rfl⟩

/-- Witness of C3: a limiter that admits every request and a waiter that grants
after 3 instants, in front of the handler that writes `hello`. -/
theorem limiter_admitted_passes_through_witness :
    allowAll.Allow 0 = true ∧
    (grantingWaiter.Wait sampleRequest.Context 0).1 = none ∧
    calls (NewErroringLimiter allowAll (serve helloApp) freshWriter sampleRequest 0).trace
      = [(freshWriter, sampleRequest)] ∧
    calls (NewDelayingLimiter grantingWaiter (serve helloApp) freshWriter
        sampleRequest 0).trace = [(freshWriter, sampleRequest)] :=
  ⟨by decide, by decide,
    ((limiter_admitted_passes_through allowAll grantingWaiter (serve helloApp) helloApp
        freshWriter sampleRequest 0).1 (by decide)).2.1,
    ((limiter_admitted_passes_through allowAll grantingWaiter (serve helloApp) helloApp
        freshWriter sampleRequest 0).2 (by decide)).2.1⟩

/-! ## Lemmas on contexts -/

/-- A context reports an error at an instant when it became done by then. -/
theorem Err_eq_some_iff (P : Context) (t : Int) (e : CtxError) :
    P.Err t = some e ↔ ∃ tp, P.doneAt = some (tp, e) ∧ tp ≤ t := by
  unfold Context.Err
  cases hP : P.doneAt with
  | none => simp
  | some x =>
    obtain ⟨tp, ep⟩ := x
    by_cases h : tp ≤ t
    · simp only [h, if_true, Option.some.injEq, Prod.mk.injEq]
      constructor
      · intro h1
        exact ⟨tp, ⟨rfl, h1⟩, h⟩
      · rintro ⟨_, ⟨_, h2⟩, _⟩
        exact h2
    · simp only [h, if_false, Option.some.injEq, Prod.mk.injEq]
      constructor
      · intro h1
        cases h1
      · rintro ⟨tq, ⟨h1, _⟩, h3⟩
        exact absurd (h1 ▸ h3) h

/-- Of two cancellations the one that is not later sticks. -/
theorem firstDone_some_some (ta tb : Int) (ea eb : CtxError) :
    firstDone (some (ta, ea)) (some (tb, eb))
      = if ta ≤ tb then some (ta, ea) else some (tb, eb) := rfl

/-- When the child context of `WithTimeout`, cancelled at `t1`, becomes done. -/
theorem doneAt_cancel_WithTimeout (P : Context) (d now t1 : Int) :
    ((WithTimeout P d now).cancel t1).doneAt =
      if (∃ cur, P.Deadline = some cur ∧ cur < now + d) then
        firstDone P.doneAt (some (t1, CtxError.Canceled))
      else
        firstDone P.doneAt
          (firstDone (some (max (now + d) now, CtxError.DeadlineExceeded))
            (some (t1, CtxError.Canceled))) := by
  unfold WithTimeout WithDeadline WithCancel
  cases hD : P.Deadline with
  | none => simp [Context.cancel, Context.doneAt]
  | some cur =>
    by_cases hc : cur < now + d
    · simp [hc, Context.cancel, Context.doneAt]
    · simp [hc, Context.cancel, Context.doneAt]

/-- A child of an expired parent reports `DeadlineExceeded`, whatever its own
timeout. -/
theorem child_Err_of_parent_expired (P : Context) (d now t1 : Int)
    (h : P.Err t1 = some CtxError.DeadlineExceeded) :
    ((WithTimeout P d now).cancel t1).Err t1 = some CtxError.DeadlineExceeded := by
  obtain ⟨tp, hP, hle⟩ := (Err_eq_some_iff P t1 _).1 h
  rw [Err_eq_some_iff, doneAt_cancel_WithTimeout, hP]
  by_cases hE : ∃ cur, P.Deadline = some cur ∧ cur < now + d
  · rw [if_pos hE, firstDone_some_some, if_pos hle]
    exact ⟨tp, rfl, hle⟩
  · rw [if_neg hE]
    by_cases hmax : max (now + d) now ≤ t1
    · simp only [firstDone_some_some, if_pos hmax]
      by_cases hpm : tp ≤ max (now + d) now
      · rw [if_pos hpm]
        exact ⟨tp, rfl, hle⟩
      · rw [if_neg hpm]
        exact ⟨_, rfl, hmax⟩
    · simp only [firstDone_some_some, if_neg hmax, if_pos hle]
      exact ⟨tp, rfl, hle⟩

/-- A child cancelled before its own deadline reports `DeadlineExceeded` only when
its parent does. -/
theorem child_Err_not_expired (P : Context) (d now t1 : Int)
    (hd : t1 < now + d) (h : P.Err t1 ≠ some CtxError.DeadlineExceeded) :
    ((WithTimeout P d now).cancel t1).Err t1 ≠ some CtxError.DeadlineExceeded := by
  intro hc
  apply h
  rw [Err_eq_some_iff] at hc ⊢
  rw [doneAt_cancel_WithTimeout] at hc
  obtain ⟨tq, hq, hle⟩ := hc
  have hmax : ¬ max (now + d) now ≤ t1 := by omega
  cases hP : P.doneAt with
  | none =>
    rw [hP] at hq
    simp only [firstDone, firstDone_some_some, if_neg hmax, ite_self] at hq
    simp at hq
  | some x =>
    obtain ⟨tp, ep⟩ := x
    rw [hP] at hq
    simp only [firstDone_some_some, if_neg hmax, ite_self] at hq
    by_cases hpt : tp ≤ t1
    · rw [if_pos hpt] at hq
      simp only [Option.some.injEq, Prod.mk.injEq] at hq
      exact ⟨tp, by rw [hq.2], hpt⟩
    · rw [if_neg hpt] at hq
      simp at hq

/-- A child whose own timer was armed and fired while the parent was not done
reports `DeadlineExceeded`. -/
theorem child_Err_own_timer (P : Context) (d now t1 : Int)
    (hD : ∀ cur, P.Deadline = some cur → ¬ cur < now + d)
    (hnow : now ≤ t1) (hd : now + d ≤ t1) (h : P.Err t1 = none) :
    ((WithTimeout P d now).cancel t1).Err t1 = some CtxError.DeadlineExceeded := by
  have hE : ¬ ∃ cur, P.Deadline = some cur ∧ cur < now + d := by
    rintro ⟨cur, h1, h2⟩
    exact hD cur h1 h2
  have hmax : max (now + d) now ≤ t1 := by omega
  rw [Err_eq_some_iff, doneAt_cancel_WithTimeout, if_neg hE]
  simp only [firstDone_some_some, if_pos hmax]
  cases hP : P.doneAt with
  | none => exact ⟨_, rfl, hmax⟩
  | some x =>
    obtain ⟨tp, ep⟩ := x
    have hlt : ¬ tp ≤ t1 := by
      intro hle
      have : P.Err t1 = some ep := (Err_eq_some_iff P t1 ep).2 ⟨tp, hP, hle⟩
      rw [h] at this
      cases this
    have hlt2 : ¬ tp ≤ max (now + d) now := by omega
    simp only [firstDone_some_some, if_neg hlt2]
    exact ⟨_, rfl, hmax⟩

/-- `WithDeadline` arms a timer unless the parent's deadline is sooner. -/
theorem armsTimer_iff (P : Context) (d : Int) :
    armsTimer P d = true ↔ ¬ ∃ cur, P.Deadline = some cur ∧ cur < d := by
  unfold armsTimer
  cases hD : P.Deadline with
  | none => simp
  | some cur => simp

/-- When the child context of `Timeout.ServeHTTP` is done with `DeadlineExceeded` as
`next` comes back at `t1`: when the parent has expired by then, or when the
child's own timer was armed and fired, by `t1`, while the parent was not
done. -/
theorem child_Err_DeadlineExceeded_iff (P : Context) (d now t1 : Int) :
    ((WithTimeout P d now).cancel t1).Err t1 = some CtxError.DeadlineExceeded ↔
      (P.Err t1 = some CtxError.DeadlineExceeded ∨
        (armsTimer P (now + d) = true ∧ max (now + d) now ≤ t1 ∧
          P.Err (max (now + d) now) = none)) := by
  constructor
  · intro h
    rw [Err_eq_some_iff, doneAt_cancel_WithTimeout] at h
    obtain ⟨tq, hq, hle⟩ := h
    by_cases hE : ∃ cur, P.Deadline = some cur ∧ cur < now + d
    · rw [if_pos hE] at hq
      left
      cases hP : P.doneAt with
      | none =>
        rw [hP] at hq
        simp [firstDone] at hq
      | some x =>
        obtain ⟨tp, ep⟩ := x
        rw [hP, firstDone_some_some] at hq
        by_cases hpt : tp ≤ t1
        · rw [if_pos hpt] at hq
          simp only [Option.some.injEq, Prod.mk.injEq] at hq
          exact (Err_eq_some_iff P t1 _).2 ⟨tp, by rw [hP, hq.2], hpt⟩
        · rw [if_neg hpt] at hq
          simp at hq
    · rw [if_neg hE] at hq
      have harm : armsTimer P (now + d) = true := (armsTimer_iff P (now + d)).2 hE
      by_cases hmax : max (now + d) now ≤ t1
      · simp only [firstDone_some_some, if_pos hmax] at hq
        cases hP : P.doneAt with
        | none =>
          right
          exact ⟨harm, hmax, by simp [Context.Err, hP]⟩
        | some x =>
          obtain ⟨tp, ep⟩ := x
          rw [hP, firstDone_some_some] at hq
          by_cases hpm : tp ≤ max (now + d) now
          · rw [if_pos hpm] at hq
            simp only [Option.some.injEq, Prod.mk.injEq] at hq
            left
            exact (Err_eq_some_iff P t1 _).2 ⟨tp, by rw [hP, hq.2], by omega⟩
          · right
            exact ⟨harm, hmax, by simp [Context.Err, hP, hpm]⟩
      · simp only [firstDone_some_some, if_neg hmax] at hq
        left
        cases hP : P.doneAt with
        | none =>
          rw [hP] at hq
          simp [firstDone] at hq
        | some x =>
          obtain ⟨tp, ep⟩ := x
          rw [hP, firstDone_some_some] at hq
          by_cases hpt : tp ≤ t1
          · rw [if_pos hpt] at hq
            simp only [Option.some.injEq, Prod.mk.injEq] at hq
            exact (Err_eq_some_iff P t1 _).2 ⟨tp, by rw [hP, hq.2], hpt⟩
          · rw [if_neg hpt] at hq
            simp at hq
  · rintro (h | ⟨harm, hmax, hnone⟩)
    · exact child_Err_of_parent_expired P d now t1 h
    · have hE : ¬ ∃ cur, P.Deadline = some cur ∧ cur < now + d :=
        (armsTimer_iff P (now + d)).1 harm
      rw [Err_eq_some_iff, doneAt_cancel_WithTimeout, if_neg hE]
      simp only [firstDone_some_some, if_pos hmax]
      cases hP : P.doneAt with
      | none => exact ⟨_, rfl, hmax⟩
      | some x =>
        obtain ⟨tp, ep⟩ := x
        have hlt : ¬ tp ≤ max (now + d) now := by
          intro hle
          have : P.Err (max (now + d) now) = some ep :=
            (Err_eq_some_iff P _ ep).2 ⟨tp, hP, hle⟩
          rw [hnone] at this
          cases this
        simp only [firstDone_some_some, if_neg hlt]
        exact ⟨_, rfl, hmax⟩

/-- A context that reports `Canceled` at an instant never reports
`DeadlineExceeded`. -/
theorem Err_ne_of_Canceled (P : Context) (t t1 : Int)
    (h : P.Err t = some CtxError.Canceled) : P.Err t1 ≠ some CtxError.DeadlineExceeded := by
  intro h1
  obtain ⟨tp, hP, _⟩ := (Err_eq_some_iff P t _).1 h
  obtain ⟨tq, hQ, _⟩ := (Err_eq_some_iff P t1 _).1 h1
  rw [hP] at hQ
  simp at hQ

/-! ## Deadline enforcement (`negroni/timeout/timeout.go`) -/

/-- What `Timeout.ServeHTTP` leaves in the writer: the deferred function writes
status 504 exactly when the cancelled child context reports
`DeadlineExceeded`. -/
theorem Timeout.ServeHTTP_w (t : Timeout) (w : ResponseWriter) (r : Request)
    (next : Handler) (now : Int) :
    (t.ServeHTTP w r next now).w =
      if ((t.childCtx r now).cancel (t.inner w r next now).now).Err
          (t.inner w r next now).now = some CtxError.DeadlineExceeded then
        (t.inner w r next now).w.WriteHeader StatusGatewayTimeout
      else (t.inner w r next now).w := rfl

/-- Apart from the writer, the outcome of `Timeout.ServeHTTP` is the outcome of
`next`. -/
theorem Timeout.ServeHTTP_rest (t : Timeout) (w : ResponseWriter) (r : Request)
    (next : Handler) (now : Int) :
    (t.ServeHTTP w r next now).now = (t.inner w r next now).now ∧
    (t.ServeHTTP w r next now).panicked = (t.inner w r next now).panicked ∧
    (t.ServeHTTP w r next now).trace = (t.inner w r next now).trace :=
  ⟨rfl, rfl, rfl⟩

/-- When the cancelled child context does not report `DeadlineExceeded`,
`Timeout.ServeHTTP` does nothing to the outcome of `next`. -/
theorem Timeout.ServeHTTP_eq_inner (t : Timeout) (w : ResponseWriter) (r : Request)
    (next : Handler) (now : Int)
    (h : ((t.childCtx r now).cancel (t.inner w r next now).now).Err
        (t.inner w r next now).now ≠ some CtxError.DeadlineExceeded) :
    t.ServeHTTP w r next now = t.inner w r next now := by
  have hw : (t.ServeHTTP w r next now).w = (t.inner w r next now).w := by
    rw [Timeout.ServeHTTP_w]
    exact if_neg h
  have hrest := Timeout.ServeHTTP_rest t w r next now
  cases hS : t.ServeHTTP w r next now
  cases hI : t.inner w r next now
  simp_all

/-- C4, counterexample: the timeout is 10, the handler writes status 200 and
returns at instant 50.  When it returns the child context reports
`DeadlineExceeded`, and yet, on the server's own writer, the status of the
response is 200, not 504.  On negroni's writer the client's status is 200 as
well, while `Status()` reports 504: two status values are observable. -/
theorem timeout_expired_status_not_504 :
    (((New 10).childCtx sampleRequest 0).cancel
        ((New 10).inner freshWriter sampleRequest (serve slowOkApp) 0).now).Err
        ((New 10).inner freshWriter sampleRequest (serve slowOkApp) 0).now
      = some CtxError.DeadlineExceeded ∧
    ((New 10).ServeHTTP freshWriter sampleRequest (serve slowOkApp) 0).w.wireStatus = 200 ∧
    ((New 10).ServeHTTP freshWriter sampleRequest (serve slowOkApp) 0).w.wireStatus
      ≠ StatusGatewayTimeout ∧
    ((New 10).ServeHTTP negroniWriter sampleRequest (serve slowOkApp) 0).w.clientStatus
      = 200 ∧
    ((New 10).ServeHTTP negroniWriter sampleRequest (serve slowOkApp) 0).w.Status
      = 504 := by
  decide

/-- C4, amended.  Let the child context report `DeadlineExceeded` when `next` comes
back.  If `next` left no status in any layer of the writer, the response gets
status 504 and every layer reports 504.  If `next` wrote a status line, the
client keeps that status.  A writer that holds a status and in which the first
status wins (the server's writer, chi's wrapper) is left exactly as `next` left
it, so one status is observable; negroni's writer, which records the code of
every call, reports 504 from then on whatever the client got. -/
theorem timeout_expired_status (t : Timeout) (w : ResponseWriter) (r : Request)
    (next : Handler) (now : Int)
    (hexp : ((t.childCtx r now).cancel (t.inner w r next now).now).Err
        (t.inner w r next now).now = some CtxError.DeadlineExceeded) :
    ((t.inner w r next now).w.pending = true →
      (t.ServeHTTP w r next now).w.clientStatus = StatusGatewayTimeout ∧
      (t.ServeHTTP w r next now).w.wireStatus = StatusGatewayTimeout ∧
      (t.ServeHTTP w r next now).w.Status = StatusGatewayTimeout) ∧
    ((t.inner w r next now).w.wroteStatus = true →
      (t.ServeHTTP w r next now).w.clientStatus
        = (t.inner w r next now).w.clientStatus ∧
      (t.ServeHTTP w r next now).w.wireStatus = (t.inner w r next now).w.wireStatus) ∧
    ((t.inner w r next now).w.firstStatusWins = true →
      (t.inner w r next now).w.written = true →
      (t.ServeHTTP w r next now).w = (t.inner w r next now).w) ∧
    (∀ (i : ResponseWriter) (s n : Nat),
      (t.inner w r next now).w = ResponseWriter.negroni i s n →
      (t.ServeHTTP w r next now).w.Status = StatusGatewayTimeout) := by
  rw [Timeout.ServeHTTP_w, if_pos hexp]
  refine ⟨?_, ?_, ?_, ?_⟩
  · intro hp
    have h := WriteHeader_of_pending _ StatusGatewayTimeout hp (by decide)
    exact ⟨by simp [ResponseWriter.clientStatus, h.1, h.2.1], h.2.1, h.2.2⟩
  · intro hw
    have h1 := wroteStatus_WriteHeader_of_wroteStatus _ StatusGatewayTimeout hw
    have h2 := wireStatus_WriteHeader_of_wroteStatus _ StatusGatewayTimeout hw
    exact ⟨by simp [ResponseWriter.clientStatus, h1, h2, hw], h2⟩
  · intro hf hw
    exact WriteHeader_of_written _ _ hf hw
  · intro i s n hi
    rw [hi]
    rfl

/-- Witness of C4 (amended): the timeout is 5, the handler writes nothing and
returns at instant 10; the status of the response is 504. -/
theorem timeout_expired_status_witness :
    (((New 5).childCtx sampleRequest 0).cancel
        ((New 5).inner freshWriter sampleRequest (serve silentApp) 0).now).Err
        ((New 5).inner freshWriter sampleRequest (serve silentApp) 0).now
      = some CtxError.DeadlineExceeded ∧
    ((New 5).inner freshWriter sampleRequest (serve silentApp) 0).w.pending = true ∧
    ((New 5).ServeHTTP freshWriter sampleRequest (serve silentApp) 0).w.clientStatus
      = StatusGatewayTimeout :=
  ⟨by decide, by decide,
    ((timeout_expired_status (New 5) freshWriter sampleRequest (serve silentApp) 0
      (by decide)).1 (by decide)).1⟩

/-- C5: a status the handler wrote is the status of the response after
`Timeout.ServeHTTP`, whether or not the deadline fired.  If `next` leaves the
status line written with status `s`, the client's status after `ServeHTTP` is
`s`.  A writer in which the first status wins and that holds the status is
left by the deferred function exactly as `next` left it.  And an application
handler whose first call on a writer without a status is `WriteHeader(s)`, `s`
not an informational code, ends with status `s`. -/
theorem timeout_keeps_handler_status (t : Timeout) (w : ResponseWriter) (r : Request)
    (next : Handler) (now : Int) (s : Nat) :
    ((t.inner w r next now).w.wroteStatus = true →
      (t.inner w r next now).w.wireStatus = s →
      (t.ServeHTTP w r next now).w.wireStatus = s ∧
      (t.ServeHTTP w r next now).w.clientStatus = s) ∧
    ((t.inner w r next now).w.firstStatusWins = true →
      (t.inner w r next now).w.written = true →
      (t.ServeHTTP w r next now).w = (t.inner w r next now).w) ∧
    (∀ (b : Behaviour) (ops : List WriterOp), w.pending = true →
      informational s = false →
      (b w (r.WithContext (t.childCtx r now)) now).ops = WriterOp.writeHeader s :: ops →
      (t.ServeHTTP w r (serve b) now).w.wireStatus = s ∧
      (t.ServeHTTP w r (serve b) now).w.clientStatus = s) := by
  have key : ∀ nx : Handler, (t.inner w r nx now).w.wroteStatus = true →
      (t.inner w r nx now).w.wireStatus = s →
      (t.ServeHTTP w r nx now).w.wireStatus = s ∧
      (t.ServeHTTP w r nx now).w.clientStatus = s := by
    intro nx hw hs
    rw [Timeout.ServeHTTP_w]
    split_ifs
    · have h1 := wroteStatus_WriteHeader_of_wroteStatus _ StatusGatewayTimeout hw
      have h2 := wireStatus_WriteHeader_of_wroteStatus _ StatusGatewayTimeout hw
      exact ⟨h2.trans hs, by simp [ResponseWriter.clientStatus, h1, h2, hs]⟩
    · exact ⟨hs, by simp [ResponseWriter.clientStatus, hw, hs]⟩
  refine ⟨key next, ?_, ?_⟩
  · intro hf hw
    rw [Timeout.ServeHTTP_w]
    split_ifs
    · exact WriteHeader_of_written _ _ hf hw
    · rfl
  · intro b ops hp hinf hops
    have hret := (b w (r.WithContext (t.childCtx r now)) now).returns
    rw [hops] at hret
    simp only [ResponseWriter.opsPanic, ResponseWriter.panicsOn, Bool.or_eq_false_iff] at hret
    have hvalid := validCode_of_pending w s hp hret.1
    have hfin : finalCode s = true := by simp [finalCode, hvalid, hinf]
    have hwh := WriteHeader_of_pending w s hp hfin
    have hin : (t.inner w r (serve b) now).w = (w.WriteHeader s).applyOps ops := by
      show w.applyOps (b w (r.WithContext (t.childCtx r now)) now).ops = _
      rw [hops]
      rfl
    have h1 := status_applyOps ops (w.WriteHeader s) hwh.1
    apply key (serve b)
    · rw [hin]
      exact h1.1
    · rw [hin]
      exact h1.2.trans hwh.2.1

/-- Witness of C5: the timeout is 10, the handler writes status 200 and returns
at instant 50, after the deadline; the status of the response is 200. -/
theorem timeout_keeps_handler_status_witness :
    ((New 10).inner freshWriter sampleRequest (serve slowOkApp) 0).w.wroteStatus = true ∧
    ((New 10).inner freshWriter sampleRequest (serve slowOkApp) 0).w.wireStatus = 200 ∧
    (((New 10).childCtx sampleRequest 0).cancel 50).Err 50
      = some CtxError.DeadlineExceeded ∧
    ((New 10).ServeHTTP freshWriter sampleRequest (serve slowOkApp) 0).w.clientStatus
      = 200 :=
  ⟨by decide, by decide, by decide,
    ((timeout_keeps_handler_status (New 10) freshWriter sampleRequest (serve slowOkApp) 0
      200).1 (by decide) (by decide)).2⟩

/-- C6, counterexample: the timeout is 100, the request's own context has a
deadline at instant 5, the handler writes nothing and returns at instant 10.
The child's own timeout has not elapsed (10 < 0 + 100) and the parent context
has expired; `Timeout.ServeHTTP` writes status 504 all the same. -/
theorem timeout_writes_504_on_parent_expiry :
    ((New 100).inner freshWriter expiringRequest (serve silentApp) 0).now = 10 ∧
    ((New 100).inner freshWriter expiringRequest (serve silentApp) 0).now
      < 0 + (New 100).timeout ∧
    expiringRequest.Context.Err 10 = some CtxError.DeadlineExceeded ∧
    ((New 100).inner freshWriter expiringRequest (serve silentApp) 0).w = freshWriter ∧
    ((New 100).ServeHTTP freshWriter expiringRequest (serve silentApp) 0).w
      = freshWriter.WriteHeader StatusGatewayTimeout ∧
    ((New 100).ServeHTTP freshWriter expiringRequest (serve silentApp) 0).w.wireStatus
      = 504 ∧
    ((New 100).ServeHTTP freshWriter expiringRequest (serve silentApp) 0).w
      ≠ ((New 100).inner freshWriter expiringRequest (serve silentApp) 0).w := by
  decide

/-- C6, amended.  `Timeout.ServeHTTP` calls `WriteHeader(504)` exactly when, as `next`
comes back, the child context is done with `DeadlineExceeded`: when the child's
own timer was armed and fired by then while the parent was not done, and also
when the parent context has expired by then (parts 1 and 2).  In every other
case it performs no write and its outcome is the outcome of `next`: in
particular when `next` comes back before the child's deadline and the parent
has not expired (part 3), and when the parent was cancelled by its owner
before the child's deadline, however late `next` comes back (part 4). -/
theorem timeout_writes_on_deadline_exceeded (t : Timeout) (w : ResponseWriter)
    (r : Request) (next : Handler) (now : Int) :
    ((r.Context.Err (t.inner w r next now).now = some CtxError.DeadlineExceeded ∨
        (armsTimer r.Context (now + t.timeout) = true ∧
          max (now + t.timeout) now ≤ (t.inner w r next now).now ∧
          r.Context.Err (max (now + t.timeout) now) = none)) →
      (t.ServeHTTP w r next now).w
        = (t.inner w r next now).w.WriteHeader StatusGatewayTimeout) ∧
    (¬ (r.Context.Err (t.inner w r next now).now = some CtxError.DeadlineExceeded ∨
        (armsTimer r.Context (now + t.timeout) = true ∧
          max (now + t.timeout) now ≤ (t.inner w r next now).now ∧
          r.Context.Err (max (now + t.timeout) now) = none)) →
      t.ServeHTTP w r next now = t.inner w r next now) ∧
    ((t.inner w r next now).now < now + t.timeout →
      r.Context.Err (t.inner w r next now).now ≠ some CtxError.DeadlineExceeded →
      t.ServeHTTP w r next now = t.inner w r next now) ∧
    (r.Context.Err (max (now + t.timeout) now) = some CtxError.Canceled →
      t.ServeHTTP w r next now = t.inner w r next now) := by
  have hiff := child_Err_DeadlineExceeded_iff r.Context t.timeout now
    (t.inner w r next now).now
  have hno : ¬ (r.Context.Err (t.inner w r next now).now = some CtxError.DeadlineExceeded ∨
        (armsTimer r.Context (now + t.timeout) = true ∧
          max (now + t.timeout) now ≤ (t.inner w r next now).now ∧
          r.Context.Err (max (now + t.timeout) now) = none)) →
      t.ServeHTTP w r next now = t.inner w r next now := by
    intro hn
    exact Timeout.ServeHTTP_eq_inner t w r next now (fun hc => hn (hiff.1 hc))
  refine ⟨?_, hno, ?_, ?_⟩
  · intro hc
    rw [Timeout.ServeHTTP_w]
    exact if_pos (hiff.2 hc)
  · intro hd hp
    apply hno
    rintro (h | ⟨_, hmax, _⟩)
    · exact hp h
    · omega
  · intro hcan
    apply hno
    rintro (h | ⟨_, _, hnone⟩)
    · exact Err_ne_of_Canceled _ _ _ hcan h
    · rw [hnone] at hcan
      cases hcan

/-- Witness of C6 (amended).  Part 3: the timeout is 10, the handler writes
status 200 and 42 bytes and returns at instant 5; the response keeps status 200
and 42 bytes.  Part 4: the parent context was cancelled by its owner at
instant 3 and the handler returns at instant 50, after the child's deadline;
nothing is written.  Part 1: the parent context expired at instant 5 and the
handler returns at instant 10, or the child's own timeout of 5 elapsed before
the handler returns at instant 10; status 504 is written. -/
theorem timeout_writes_on_deadline_exceeded_witness :
    ((New 10).ServeHTTP freshWriter sampleRequest (serve fortyTwoApp) 0
        = (New 10).inner freshWriter sampleRequest (serve fortyTwoApp) 0 ∧
      ((New 10).inner freshWriter sampleRequest (serve fortyTwoApp) 0).w.wireStatus = 200 ∧
      ((New 10).inner freshWriter sampleRequest (serve fortyTwoApp) 0).w.BytesWritten
        = 42) ∧
    ((New 10).inner freshWriter cancelledRequest (serve slowOkApp) 0).now = 50 ∧
    (New 10).ServeHTTP freshWriter cancelledRequest (serve slowOkApp) 0
        = (New 10).inner freshWriter cancelledRequest (serve slowOkApp) 0 ∧
    ((New 100).ServeHTTP freshWriter expiringRequest (serve silentApp) 0).w
        = ((New 100).inner freshWriter expiringRequest (serve silentApp) 0).w.WriteHeader
            StatusGatewayTimeout ∧
    ((New 5).ServeHTTP freshWriter sampleRequest (serve silentApp) 0).w
        = ((New 5).inner freshWriter sampleRequest (serve silentApp) 0).w.WriteHeader
            StatusGatewayTimeout :=
  ⟨⟨(timeout_writes_on_deadline_exceeded (New 10) freshWriter sampleRequest
        (serve fortyTwoApp) 0).2.2.1 (by decide) (by decide), by decide, by decide⟩,
    by decide,
    (timeout_writes_on_deadline_exceeded (New 10) freshWriter cancelledRequest
        (serve slowOkApp) 0).2.2.2 (by decide),
    (timeout_writes_on_deadline_exceeded (New 100) freshWriter expiringRequest
        (serve silentApp) 0).1 (Or.inl (by decide)),
    (timeout_writes_on_deadline_exceeded (New 5) freshWriter sampleRequest
        (serve silentApp) 0).1 (Or.inr ⟨by decide, by decide, by decide⟩)⟩

/-! ## Client address (`chi/realip/realip.go`) -/

/-- A key nobody published has the value `nil`. -/
theorem Value_of_not_published (ctx : Context) (k : CtxKey)
    (h : ctx.published k = false) : ctx.Value k = Value.nil := by
  induction ctx with
  | background => rfl
  | valueCtx parent key val ih =>
      simp only [Context.published, Bool.or_eq_false_iff, decide_eq_false_iff_not] at h
      simp only [Context.Value, if_neg h.1]
      exact ih h.2
  | cancelCtx parent c ih => exact ih h
  | timerCtx parent d cr c ih => exact ih h

/-- C9: `GetRealIP` returns a string for every context, the `nil` context
included.  It returns the string stored under `RealIPKey` when there is one, in
particular the one just published with `context.WithValue`, and the empty
string when the context is `nil`, when nothing was published under `RealIPKey`,
and when the value under `RealIPKey` is not a string. -/
theorem GetRealIP_total :
    GetRealIP none = "" ∧
    (∀ (ctx : Context) (s : String),
      ctx.Value RealIPKey = Value.string s → GetRealIP (some ctx) = s) ∧
    (∀ (ctx : Context) (s : String),
      GetRealIP (some (WithValue ctx RealIPKey (Value.string s))) = s) ∧
    (∀ ctx : Context, ctx.published RealIPKey = false → GetRealIP (some ctx) = "") ∧
    (∀ ctx : Context, (∀ s, ctx.Value RealIPKey ≠ Value.string s) →
      GetRealIP (some ctx) = "") := by
  refine ⟨rfl, ?_, ?_, ?_, ?_⟩
  · intro ctx s h
    simp [GetRealIP, h]
  · intro ctx s
    simp [GetRealIP, WithValue, Context.Value]
  · intro ctx h
    simp [GetRealIP, Value_of_not_published ctx RealIPKey h]
  · intro ctx h
    cases hv : ctx.Value RealIPKey with
    | string s => exact absurd hv (h s)
    | nil => simp [GetRealIP, hv]
    | int i => simp [GetRealIP, hv]
    | bool b => simp [GetRealIP, hv]

/-- Witness of C9: a context that holds a string under `RealIPKey`, the
background context, and a context that holds an integer under `RealIPKey`. -/
theorem GetRealIP_total_witness :
    GetRealIP (some (Context.cancelCtx
        (Context.valueCtx Context.background RealIPKey (Value.string "203.0.113.7")) none))
      = "203.0.113.7" ∧
    GetRealIP (some Context.background) = "" ∧
    GetRealIP (some (Context.valueCtx Context.background RealIPKey (Value.int 7))) = "" :=
  ⟨GetRealIP_total.2.1 _ _ (by decide),
    GetRealIP_total.2.2.2.1 _ (by decide),
    GetRealIP_total.2.2.2.2 _ (by intro s; simp [Context.Value])⟩

/-- C8: `RealIP(next)` calls `next` exactly once, with the writer it was given and
a request `r1` that differs from `r` in its context only.  In that context
`GetRealIP` finds the address the resolver computed from `r`, every other key
has the value it has in the context of `r`, and deadline and cancellation are
those of the context of `r`.  `RealIP` itself writes nothing. -/
theorem RealIP_publishes_then_calls_next (FromRequest : Request → String)
    (next : Handler) (b : Behaviour) (w : ResponseWriter) (r : Request) (now : Int) :
    ∃ r1 : Request,
      RealIP FromRequest next w r now = next w r1 now ∧
      calls (RealIP FromRequest (serve b) w r now).trace = [(w, r1)] ∧
      (RealIP FromRequest (serve b) w r now).w = w.applyOps (b w r1 now).ops ∧
      GetRealIP (some r1.Context) = FromRequest r ∧
      (∀ k, k ≠ RealIPKey → r1.Context.Value k = r.Context.Value k) ∧
      r1.Context.Deadline = r.Context.Deadline ∧
      (∀ t, r1.Context.Err t = r.Context.Err t) ∧
      { r1 with ctx := r.ctx } = r := by
  refine ⟨r.WithContext (WithValue r.Context RealIPKey (Value.string (FromRequest r))),
    rfl, rfl, rfl, ?_, ?_, rfl, ?_, rfl⟩
  · simp [GetRealIP, Request.WithContext, Request.Context, WithValue, Context.Value]
  · intro k hk
    simp [Request.WithContext, Request.Context, WithValue, Context.Value, Ne.symm hk]
  · intro t
    rfl

/-! ## Access logs (`chi/accesslog/accesslog.go`, `negroni/accesslog/accesslog.go`) -/

/-- A call on a negroni writer leaves a negroni writer. -/
theorem apply_negroni (op : WriterOp) (i : ResponseWriter) (s n : Nat) :
    ∃ i1 s1 n1, (ResponseWriter.negroni i s n).apply op = ResponseWriter.negroni i1 s1 n1 := by
  cases op with
  | setHeader k v => exact ⟨_, _, _, rfl⟩
  | writeHeader code => exact ⟨_, _, _, rfl⟩
  | write p => exact ⟨_, _, _, rfl⟩

/-- Calls on a negroni writer leave a negroni writer. -/
theorem applyOps_negroni (ops : List WriterOp) (i : ResponseWriter) (s n : Nat) :
    ∃ i1 s1 n1,
      (ResponseWriter.negroni i s n).applyOps ops = ResponseWriter.negroni i1 s1 n1 := by
  induction ops generalizing i s n with
  | nil => exact ⟨i, s, n, rfl⟩
  | cons op ops ih =>
      obtain ⟨i1, s1, n1, h1⟩ := apply_negroni op i s n
      obtain ⟨i2, s2, n2, h2⟩ := ih i1 s1 n1
      exact ⟨i2, s2, n2, by
        simpa [ResponseWriter.applyOps, List.foldl_cons, h1] using h2⟩

/-- What negroni's writer reports as status after a sequence of calls. -/
theorem Status_applyOps_negroni (ops : List WriterOp) (i : ResponseWriter) (s n : Nat) :
    ((ResponseWriter.negroni i s n).applyOps ops).Status = lastCode s ops := by
  induction ops generalizing i s n with
  | nil => rfl
  | cons op ops ih =>
      cases op with
      | setHeader k v => exact ih (i.SetHeader k v) s n
      | writeHeader code => exact ih (i.WriteHeader code) code n
      | write p =>
          have hst : (ResponseWriter.negroni i s n).apply (WriterOp.write p)
              = ResponseWriter.negroni (i.writeFrom (false || s == 0) p).1
                  (if s = 0 then StatusOK else s)
                  (n + (i.writeFrom (false || s == 0) p).2) := by
            by_cases hs : s = 0 <;>
              simp [ResponseWriter.apply, ResponseWriter.Write, ResponseWriter.writeFrom, hs]
          show (((ResponseWriter.negroni i s n).apply (WriterOp.write p)).applyOps
            ops).Status = _
          rw [hst]
          exact ih _ _ _

/-- The trace of the chi access logger around an application handler. -/
theorem NewAccessLogger_serve_trace (logger : LogrusLogger) (b : Behaviour)
    (w : ResponseWriter) (r : Request) (now : Int) :
    (NewAccessLogger logger (serve b) w r now).trace =
      match (b (NewWrapResponseWriter w r.ProtoMajor) r now).panics with
      | some _ => [Event.served (NewWrapResponseWriter w r.ProtoMajor) r]
      | none =>
          [Event.served (NewWrapResponseWriter w r.ProtoMajor) r,
            Event.info logger
              { request := r.RequestURI
                method := r.Method
                proto := r.Proto
                userAgent := r.UserAgent
                latencyMs := int64 (int64 (now
                  + (b (NewWrapResponseWriter w r.ProtoMajor) r now).elapsed - now) * 1000)
                realip := GetRealIP (some r.Context)
                status := ((NewWrapResponseWriter w r.ProtoMajor).applyOps
                  (b (NewWrapResponseWriter w r.ProtoMajor) r now).ops).Status
                size := ((NewWrapResponseWriter w r.ProtoMajor).applyOps
                  (b (NewWrapResponseWriter w r.ProtoMajor) r now).ops).BytesWritten }
              "completed handling request"] := by
  unfold NewAccessLogger serve
  cases h : (b (NewWrapResponseWriter w r.ProtoMajor) r now).panics <;> simp [h]

/-- The trace of the negroni access logger around an application handler that
returns, on a negroni writer. -/
theorem Logger_ServeHTTP_serve_trace (l : Logger) (b : Behaviour)
    (i : ResponseWriter) (s n : Nat) (r : Request) (now : Int)
    (h : (b (ResponseWriter.negroni i s n) r now).panics = none) :
    (l.ServeHTTP (ResponseWriter.negroni i s n) r (serve b) now).trace =
      [Event.served (ResponseWriter.negroni i s n) r,
        Event.printf (l.template (l.entry r now
          ((ResponseWriter.negroni i s n).applyOps
            (b (ResponseWriter.negroni i s n) r now).ops)
          (now + (b (ResponseWriter.negroni i s n) r now).elapsed)))] := by
  obtain ⟨i1, s1, n1, h1⟩ :=
    applyOps_negroni (b (ResponseWriter.negroni i s n) r now).ops i s n
  simp [Logger.ServeHTTP, serve, h, h1]

/-- The size in bytes of a concatenation. -/
theorem utf8ByteSize_append (a b : String) :
    (a ++ b).utf8ByteSize = a.utf8ByteSize + b.utf8ByteSize := by
  cases a with
  | mk as =>
    cases b with
    | mk bs =>
      show String.utf8ByteSize ⟨as ++ bs⟩ = _
      simp [String.utf8ByteSize_mk, String.utf8Len_append]

/-- A fresh chi wrapper around a server writer without a status agrees with
it. -/
theorem wrapperAgrees_fresh (hd : List (String × String)) (st : Nat) (body : String)
    (protoMajor : Nat) :
    wrapperAgrees body.utf8ByteSize
      (NewWrapResponseWriter (ResponseWriter.response hd false st body) protoMajor) := by
  simp [wrapperAgrees, NewWrapResponseWriter]

/-- What `Write` does to the server's writer: a status line is there afterwards,
the one that was there before or `StatusOK`, and the body grew by the bytes
the call reports. -/
theorem response_writeFrom (hd : List (String × String)) (wh : Bool) (st : Nat)
    (body : String) (hdr : Bool) (p : String) :
    ∃ (body1 : String) (k : Nat),
      (ResponseWriter.response hd wh st body).writeFrom hdr p
        = (ResponseWriter.response hd true (if wh then st else StatusOK) body1, k) ∧
      body1.utf8ByteSize = body.utf8ByteSize + k := by
  by_cases hb : bodyAllowedForStatus (if wh then st else StatusOK) = true
  · exact ⟨body ++ p, p.utf8ByteSize, by simp [ResponseWriter.writeFrom, hb],
      utf8ByteSize_append body p⟩
  · exact ⟨body, 0, by simp [ResponseWriter.writeFrom, hb], rfl⟩

/-- The agreement of a chi wrapper with the server's writer, spelled out. -/
theorem wrapperAgrees_iff (base : Nat) (hd : List (String × String)) (wh : Bool)
    (st : Nat) (body : String) (whh : Bool) (c n : Nat) :
    wrapperAgrees base
        (ResponseWriter.basicWriter (ResponseWriter.response hd wh st body) whh c n) ↔
      ((wh = true → whh = true) ∧ (whh = false → c = 0) ∧
        (whh = true → informational c = false → wh = true ∧ st = c) ∧
        n + base = body.utf8ByteSize) := Iff.rfl

/-- A call on the wrapper that returns keeps wrapper and server writer in
agreement. -/
theorem wrapperAgrees_apply (base : Nat) (ww : ResponseWriter) (op : WriterOp)
    (h : wrapperAgrees base ww) (hret : ww.panicsOn op = false) :
    wrapperAgrees base (ww.apply op) := by
  cases ww with
  | response hd wh st body => exact absurd h (by simp [wrapperAgrees])
  | negroni i s n => exact absurd h (by simp [wrapperAgrees])
  | basicWriter i whh c n =>
    cases i with
    | basicWriter j a b2 c2 => exact absurd h (by simp [wrapperAgrees])
    | negroni j s2 n2 => exact absurd h (by simp [wrapperAgrees])
    | response hd wh st body =>
      rw [wrapperAgrees_iff] at h
      obtain ⟨h1, h2, h3, h4⟩ := h
      cases op with
      | setHeader k v =>
          show wrapperAgrees base (ResponseWriter.basicWriter
            (ResponseWriter.response (headerSet hd k v) wh st body) whh c n)
          rw [wrapperAgrees_iff]
          exact ⟨h1, h2, h3, h4⟩
      | writeHeader code =>
          cases whh with
          | true =>
              show wrapperAgrees base (ResponseWriter.basicWriter
                (ResponseWriter.response hd wh st body) true c n)
              rw [wrapperAgrees_iff]
              exact ⟨h1, h2, h3, h4⟩
          | false =>
              have hwh : wh = false := by
                cases wh with
                | false => rfl
                | true => exact absurd (h1 rfl) (by decide)
              subst hwh
              have hv : validCode code = true := by
                simpa [ResponseWriter.panicsOn, ResponseWriter.rejects] using hret
              by_cases hi : informational code = true
              · have hst : (ResponseWriter.basicWriter
                    (ResponseWriter.response hd false st body) false c n).apply
                      (WriterOp.writeHeader code)
                    = ResponseWriter.basicWriter
                        (ResponseWriter.response hd false st body) true code n := by
                  simp [ResponseWriter.apply, ResponseWriter.WriteHeader, hv, hi]
                rw [hst, wrapperAgrees_iff]
                refine ⟨fun hf => absurd hf (by decide), fun hf => absurd hf (by decide),
                  ?_, h4⟩
                intro _ hc
                rw [hi] at hc
                exact absurd hc (by decide)
              · have hst : (ResponseWriter.basicWriter
                    (ResponseWriter.response hd false st body) false c n).apply
                      (WriterOp.writeHeader code)
                    = ResponseWriter.basicWriter
                        (ResponseWriter.response hd true code body) true code n := by
                  simp [ResponseWriter.apply, ResponseWriter.WriteHeader, hv, hi]
                rw [hst, wrapperAgrees_iff]
                exact ⟨fun _ => rfl, fun hf => absurd hf (by decide),
                  fun _ _ => ⟨rfl, rfl⟩, h4⟩
      | write p =>
          obtain ⟨body1, k, hw, hsz⟩ := response_writeFrom hd wh st body (!whh) p
          have hst : (ResponseWriter.basicWriter
                (ResponseWriter.response hd wh st body) whh c n).apply (WriterOp.write p)
              = ResponseWriter.basicWriter
                  (ResponseWriter.response hd true (if wh then st else StatusOK) body1)
                  true (if whh then c else StatusOK) (n + k) := by
            show ResponseWriter.basicWriter
                ((ResponseWriter.response hd wh st body).writeFrom (!whh) p).1 true
                (if whh then c else StatusOK)
                (n + ((ResponseWriter.response hd wh st body).writeFrom (!whh) p).2) = _
            rw [hw]
          rw [hst, wrapperAgrees_iff]
          refine ⟨fun _ => rfl, fun hf => absurd hf (by decide), ?_, by omega⟩
          intro _ hc
          refine ⟨rfl, ?_⟩
          cases whh with
          | true =>
              have h5 := h3 rfl (by simpa using hc)
              simp [h5.1, h5.2]
          | false =>
              have hwh : wh = false := by
                cases wh with
                | false => rfl
                | true => exact absurd (h1 rfl) (by decide)
              simp [hwh]

/-- Calls on the wrapper that return keep wrapper and server writer in
agreement. -/
theorem wrapperAgrees_applyOps (base : Nat) (ops : List WriterOp) (ww : ResponseWriter)
    (h : wrapperAgrees base ww) (hret : ww.opsPanic ops = false) :
    wrapperAgrees base (ww.applyOps ops) := by
  induction ops generalizing ww with
  | nil => exact h
  | cons op ops ih =>
      simp only [ResponseWriter.opsPanic, Bool.or_eq_false_iff] at hret
      exact ih (ww.apply op) (wrapperAgrees_apply base ww op h hret.1) hret.2

/-- What agreement says about what the wrapper reports: its status, unless
informational, is the status the client receives if a status line was written
and 0 if none was (the client then receives `StatusOK`); and its byte count is
what the body grew by. -/
theorem wrapperAgrees_reports (base : Nat) (ww : ResponseWriter)
    (h : wrapperAgrees base ww) :
    (ww.wroteStatus = true → informational ww.Status = false →
      ww.Status = ww.clientStatus) ∧
    (ww.wroteStatus = false → informational ww.Status = false →
      ww.Status = 0 ∧ ww.clientStatus = StatusOK) ∧
    ww.BytesWritten + base = ww.wireBody.utf8ByteSize := by
  cases ww with
  | response hd wh st body => exact absurd h (by simp [wrapperAgrees])
  | negroni i s n => exact absurd h (by simp [wrapperAgrees])
  | basicWriter i whh c n =>
    cases i with
    | basicWriter j a b2 c2 => exact absurd h (by simp [wrapperAgrees])
    | negroni j s2 n2 => exact absurd h (by simp [wrapperAgrees])
    | response hd wh st body =>
      simp only [wrapperAgrees] at h
      obtain ⟨h1, h2, h3, h4⟩ := h
      refine ⟨?_, ?_, h4⟩
      · intro hw hc
        simp only [ResponseWriter.wroteStatus] at hw
        simp only [ResponseWriter.Status] at hc
        have := h3 (h1 hw) hc
        simp [ResponseWriter.Status, ResponseWriter.clientStatus,
          ResponseWriter.wroteStatus, ResponseWriter.wireStatus, hw, this.2]
      · intro hw hc
        simp only [ResponseWriter.wroteStatus] at hw
        simp only [ResponseWriter.Status] at hc
        have hwhh : whh = false := by
          cases whh with
          | false => rfl
          | true =>
              have := (h3 rfl hc).1
              rw [hw] at this
              exact absurd this (by decide)
        simp [ResponseWriter.Status, ResponseWriter.clientStatus,
          ResponseWriter.wroteStatus, hw, h2 hwhh]

/-- Unwrapping does not change what the client sees. -/
theorem wire_Unwrap (ww : ResponseWriter) :
    ww.Unwrap.wroteStatus = ww.wroteStatus ∧ ww.Unwrap.wireStatus = ww.wireStatus ∧
    ww.Unwrap.wireBody = ww.wireBody ∧ ww.Unwrap.clientStatus = ww.clientStatus := by
  cases ww <;> exact ⟨rfl, rfl, rfl, rfl⟩

/-- The writer the chi access logger gives back: the one its wrapper wraps. -/
theorem NewAccessLogger_serve_w (logger : LogrusLogger) (b : Behaviour)
    (w : ResponseWriter) (r : Request) (now : Int) :
    (NewAccessLogger logger (serve b) w r now).w =
      ((NewWrapResponseWriter w r.ProtoMajor).applyOps
        (b (NewWrapResponseWriter w r.ProtoMajor) r now).ops).Unwrap ∧
    (NewAccessLogger logger (serve b) w r now).panicked =
      (b (NewWrapResponseWriter w r.ProtoMajor) r now).panics := by
  unfold NewAccessLogger serve
  cases h : (b (NewWrapResponseWriter w r.ProtoMajor) r now).panics <;> simp [h]

/-- C7, counterexample: the access logger is outermost and `RealIP` is nested
inside it.  The application handler sees the published address
`203.0.113.7`; the record of the chi logger has the empty string in `realip`,
and the line of the negroni logger starts with an empty `ClientAddr`. -/
theorem access_logger_outermost_misses_realip :
    (calls (NewAccessLogger sampleLogrus (RealIP fixedResolver (serve helloApp))
        freshWriter sampleRequest 0).trace).map (fun c => GetRealIP (some c.2.Context))
      = ["203.0.113.7"] ∧
    (infos (NewAccessLogger sampleLogrus (RealIP fixedResolver (serve helloApp))
        freshWriter sampleRequest 0).trace).map Fields.realip = [""] ∧
    printfs (sampleLogger.ServeHTTP negroniWriter sampleRequest
        (RealIP fixedResolver (serve helloApp)) 0).trace = [" GET /"] := by
  decide

/-- C7, amended: when `RealIP` wraps the access logger, so that the logger is
called with the request that carries the published address, the
resolved-address field of the one record the logger emits (`realip` for the
chi logger, `ClientAddr` for the negroni logger) is the address `RealIP`
published for that request. -/
theorem realip_logged_when_RealIP_wraps_logger (FromRequest : Request → String)
    (logger : LogrusLogger) (l : Logger) (b : Behaviour) (w : ResponseWriter)
    (r : Request) (now : Int) :
    ((b (NewWrapResponseWriter w r.ProtoMajor)
          (r.WithContext (WithValue r.Context RealIPKey (Value.string (FromRequest r))))
          now).panics = none →
      (infos (RealIP FromRequest (NewAccessLogger logger (serve b)) w r now).trace).map
          Fields.realip = [FromRequest r]) ∧
    (∀ (i : ResponseWriter) (s n : Nat),
      (b (ResponseWriter.negroni i s n)
          (r.WithContext (WithValue r.Context RealIPKey (Value.string (FromRequest r))))
          now).panics = none →
      ∃ e : LoggerEntry,
        e.ClientAddr = FromRequest r ∧
        ∀ template : LoggerEntry → String,
          printfs (RealIP FromRequest
              (fun w1 r1 => Logger.ServeHTTP
                { dateFormat := l.dateFormat, template := template, Format := l.Format }
                w1 r1 (serve b))
              (ResponseWriter.negroni i s n) r now).trace = [template e]) := by
  constructor
  · intro h
    have hr : (RealIP FromRequest (NewAccessLogger logger (serve b)) w r now)
        = NewAccessLogger logger (serve b) w
            (r.WithContext (WithValue r.Context RealIPKey (Value.string (FromRequest r))))
            now := rfl
    rw [hr, NewAccessLogger_serve_trace]
    have hpm : (r.WithContext
        (WithValue r.Context RealIPKey (Value.string (FromRequest r)))).ProtoMajor
          = r.ProtoMajor := rfl
    rw [hpm, h]
    simp [infos, GetRealIP, Request.WithContext, Request.Context, WithValue, Context.Value]
  · intro i s n h
    refine ⟨Logger.entry l
      (r.WithContext (WithValue r.Context RealIPKey (Value.string (FromRequest r)))) now
      ((ResponseWriter.negroni i s n).applyOps
        (b (ResponseWriter.negroni i s n)
          (r.WithContext (WithValue r.Context RealIPKey (Value.string (FromRequest r))))
          now).ops)
      (now + (b (ResponseWriter.negroni i s n)
          (r.WithContext (WithValue r.Context RealIPKey (Value.string (FromRequest r))))
          now).elapsed), ?_, ?_⟩
    · simp [Logger.entry, GetRealIP, Request.WithContext, Request.Context, WithValue,
        Context.Value]
    · intro template
      have hr : (RealIP FromRequest
          (fun w1 r1 => Logger.ServeHTTP
            { dateFormat := l.dateFormat, template := template, Format := l.Format }
            w1 r1 (serve b))
          (ResponseWriter.negroni i s n) r now)
          = Logger.ServeHTTP
              { dateFormat := l.dateFormat, template := template, Format := l.Format }
              (ResponseWriter.negroni i s n)
              (r.WithContext (WithValue r.Context RealIPKey (Value.string (FromRequest r))))
              (serve b) now := rfl
      rw [hr, Logger_ServeHTTP_serve_trace _ _ _ _ _ _ _ h]
      simp [printfs, Logger.entry]

/-- Witness of C7 (amended): `RealIP` around the chi logger and around the negroni
logger, in front of the handler that writes `hello`. -/
theorem realip_logged_when_RealIP_wraps_logger_witness :
    (infos (RealIP fixedResolver (NewAccessLogger sampleLogrus (serve helloApp))
        freshWriter sampleRequest 0).trace).map Fields.realip = ["203.0.113.7"] ∧
    printfs (RealIP fixedResolver
        (fun w1 r1 => Logger.ServeHTTP sampleLogger w1 r1 (serve helloApp))
        negroniWriter sampleRequest 0).trace = ["203.0.113.7 GET /"] :=
  ⟨(realip_logged_when_RealIP_wraps_logger fixedResolver sampleLogrus sampleLogger
      helloApp freshWriter sampleRequest 0).1 (by decide), by decide⟩

/-- C10, counterexample.  (1) The handler panics: the panic leaves the chi access
logger and the negroni access logger, and neither hands a record to its sink.
(2) The handler returns without writing: the chi logger records status 0, the
client receives 200.  (3) The handler calls `WriteHeader(404)` and then
`WriteHeader(500)`: the negroni logger records 500, the client receives 404.
(4) The chi logger is called on a writer that already holds status 503 and 20
body bytes (the limiter rejected and went on): it records status 200 and 5
bytes, the client receives 503 and 25 bytes. -/
theorem access_log_no_record_on_panic :
    ((NewAccessLogger sampleLogrus (serve panicApp) freshWriter sampleRequest 0).panicked
        = some "boom" ∧
      infos (NewAccessLogger sampleLogrus (serve panicApp) freshWriter sampleRequest
        0).trace = [] ∧
      (sampleLogger.ServeHTTP negroniWriter sampleRequest (serve panicApp) 0).panicked
        = some "boom" ∧
      printfs (sampleLogger.ServeHTTP negroniWriter sampleRequest (serve panicApp) 0).trace
        = []) ∧
    ((infos (NewAccessLogger sampleLogrus (serve silentApp) freshWriter sampleRequest
        0).trace).map (fun f => (f.status, f.size)) = [(0, 0)] ∧
      (NewAccessLogger sampleLogrus (serve silentApp) freshWriter sampleRequest
        0).w.clientStatus = 200) ∧
    (printfs (statusLogger.ServeHTTP negroniWriter sampleRequest (serve twiceApp) 0).trace
        = ["status 500"] ∧
      (statusLogger.ServeHTTP negroniWriter sampleRequest (serve twiceApp)
        0).w.clientStatus = 404) ∧
    ((infos (NewErroringLimiter denyAll (NewAccessLogger sampleLogrus (serve helloApp))
        freshWriter sampleRequest 0).trace).map (fun f => (f.status, f.size))
        = [(200, 5)] ∧
      (NewErroringLimiter denyAll (NewAccessLogger sampleLogrus (serve helloApp))
        freshWriter sampleRequest 0).w.clientStatus = 503 ∧
      (NewErroringLimiter denyAll (NewAccessLogger sampleLogrus (serve helloApp))
        freshWriter sampleRequest 0).w.wireBody.utf8ByteSize = 25) := by
  decide

/-- C10, amended.  When `next` returns, the access logger hands exactly one record
to its sink, with the status and the byte count its own writer reports after
the call (`ww.Status()` and `ww.BytesWritten()` for the chi logger; `res.Status()`
and `res.Size()` for the negroni logger, whose writer has to be negroni's and
reports the last code passed to `WriteHeader`).  For
the chi logger called on a server writer without a status, a status in the
record that is not informational is the status the client receives if a status
line was written, and is 0, the client receiving 200, if none was; and the
size in the record is the number of body bytes written.  When `next` panics,
the panic leaves the logger and no record is handed to the sink. -/
theorem access_log_one_record_when_next_returns (logger : LogrusLogger) (l : Logger)
    (b : Behaviour) (w : ResponseWriter) (r : Request) (now : Int) :
    ((b (NewWrapResponseWriter w r.ProtoMajor) r now).panics = none →
      (NewAccessLogger logger (serve b) w r now).panicked = none ∧
      ∃ f : Fields,
        infos (NewAccessLogger logger (serve b) w r now).trace = [f] ∧
        f.status = ((NewWrapResponseWriter w r.ProtoMajor).applyOps
          (b (NewWrapResponseWriter w r.ProtoMajor) r now).ops).Status ∧
        f.size = ((NewWrapResponseWriter w r.ProtoMajor).applyOps
          (b (NewWrapResponseWriter w r.ProtoMajor) r now).ops).BytesWritten ∧
        ∀ (hd : List (String × String)) (st : Nat) (body : String),
          w = ResponseWriter.response hd false st body →
          ((NewAccessLogger logger (serve b) w r now).w.wroteStatus = true →
            informational f.status = false →
            f.status = (NewAccessLogger logger (serve b) w r now).w.clientStatus) ∧
          ((NewAccessLogger logger (serve b) w r now).w.wroteStatus = false →
            informational f.status = false →
            f.status = 0 ∧
            (NewAccessLogger logger (serve b) w r now).w.clientStatus = StatusOK) ∧
          f.size + body.utf8ByteSize
            = (NewAccessLogger logger (serve b) w r now).w.wireBody.utf8ByteSize) ∧
    (∀ v, (b (NewWrapResponseWriter w r.ProtoMajor) r now).panics = some v →
      (NewAccessLogger logger (serve b) w r now).panicked = some v ∧
      infos (NewAccessLogger logger (serve b) w r now).trace = []) ∧
    (∀ (i : ResponseWriter) (s n : Nat),
      (b (ResponseWriter.negroni i s n) r now).panics = none →
      printfs (l.ServeHTTP (ResponseWriter.negroni i s n) r (serve b) now).trace =
        [l.template (l.entry r now
          ((ResponseWriter.negroni i s n).applyOps
            (b (ResponseWriter.negroni i s n) r now).ops)
          (now + (b (ResponseWriter.negroni i s n) r now).elapsed))] ∧
      (l.entry r now
          ((ResponseWriter.negroni i s n).applyOps
            (b (ResponseWriter.negroni i s n) r now).ops)
          (now + (b (ResponseWriter.negroni i s n) r now).elapsed)).Status =
        ((ResponseWriter.negroni i s n).applyOps
            (b (ResponseWriter.negroni i s n) r now).ops).Status ∧
      (l.entry r now
          ((ResponseWriter.negroni i s n).applyOps
            (b (ResponseWriter.negroni i s n) r now).ops)
          (now + (b (ResponseWriter.negroni i s n) r now).elapsed)).Status =
        lastCode s (b (ResponseWriter.negroni i s n) r now).ops ∧
      (l.entry r now
          ((ResponseWriter.negroni i s n).applyOps
            (b (ResponseWriter.negroni i s n) r now).ops)
          (now + (b (ResponseWriter.negroni i s n) r now).elapsed)).Size =
        ((ResponseWriter.negroni i s n).applyOps
            (b (ResponseWriter.negroni i s n) r now).ops).BytesWritten) ∧
    (∀ (rw : ResponseWriter) (v : String), (b rw r now).panics = some v →
      (l.ServeHTTP rw r (serve b) now).panicked = some v ∧
      printfs (l.ServeHTTP rw r (serve b) now).trace = []) := by
  refine ⟨?_, ?_, ?_, ?_⟩
  · intro h
    have hw := NewAccessLogger_serve_w logger b w r now
    refine ⟨by rw [hw.2, h], ?_⟩
    rw [NewAccessLogger_serve_trace, h]
    refine ⟨_, rfl, rfl, rfl, ?_⟩
    intro hd st body hwe
    subst hwe
    have hag := wrapperAgrees_applyOps body.utf8ByteSize
      (b (NewWrapResponseWriter (ResponseWriter.response hd false st body) r.ProtoMajor)
        r now).ops _ (wrapperAgrees_fresh hd st body r.ProtoMajor)
      (b (NewWrapResponseWriter (ResponseWriter.response hd false st body) r.ProtoMajor)
        r now).returns
    have hrep := wrapperAgrees_reports _ _ hag
    have hun := wire_Unwrap ((NewWrapResponseWriter
      (ResponseWriter.response hd false st body) r.ProtoMajor).applyOps
      (b (NewWrapResponseWriter (ResponseWriter.response hd false st body) r.ProtoMajor)
        r now).ops)
    rw [hw.1, hun.1, hun.2.2.1, hun.2.2.2]
    exact hrep
  · intro v h
    have hw := NewAccessLogger_serve_w logger b w r now
    refine ⟨by rw [hw.2, h], ?_⟩
    rw [NewAccessLogger_serve_trace, h]
    rfl
  · intro i s n h
    rw [Logger_ServeHTTP_serve_trace l b i s n r now h]
    exact ⟨rfl, rfl, Status_applyOps_negroni _ i s n, rfl⟩
  · intro rw v h
    simp [Logger.ServeHTTP, serve, h, printfs]

/-- Witness of C10 (amended): the handler writes status 200 and 42 bytes and
returns; the chi logger hands over one record, with status 200 and size 42,
and the negroni logger one line. -/
theorem access_log_one_record_when_next_returns_witness :
    (infos (NewAccessLogger sampleLogrus (serve fortyTwoApp) freshWriter
        sampleRequest 0).trace).map (fun f => (f.status, f.size)) = [(200, 42)] ∧
    printfs (sampleLogger.ServeHTTP negroniWriter sampleRequest (serve fortyTwoApp)
        0).trace = [" GET /"] ∧
    (NewAccessLogger sampleLogrus (serve fortyTwoApp) freshWriter sampleRequest
        0).panicked = none :=
  ⟨by decide,
    ((access_log_one_record_when_next_returns sampleLogrus sampleLogger fortyTwoApp
      freshWriter sampleRequest 0).2.2.1 freshWriter 0 0 (by decide)).1,
    ((access_log_one_record_when_next_returns sampleLogrus sampleLogger fortyTwoApp
      freshWriter sampleRequest 0).1 (by decide)).1⟩

end Gomw
